import Mathlib

/-!
The package go-meteora: request dispatch, client pool and result normalisation.

A shallow embedding of `meteora.go`.  The three entry points `Get`, `Post` and
`SwapQuote` are state transformers over an explicit `State` (the receiver with
its client pool, the log of requests handed to `client.Do`, and the memory
cells reachable through result pointers).  The library operations the file
calls (`json.Marshal`, `http.NewRequest` with the `url.Parse` in it,
`client.Do`, `io.ReadAll`, `json.Unmarshal`, `Decoder.Decode`, `reflect`) are
the fields of `Env`; `sampleEnv` is one such environment, used where a run is
evaluated.  A run either returns an optional error or aborts
(`Outcome.panic`).
-/

namespace GoMeteora

/-! ## Data model -/

/-- A Go `map[string]string`, given by its entries in the order in which a
`range` loop visits them.  The keys of a map are pairwise distinct. -/
abbrev GoMap := List (String × String)

/-- The struct `MeteoraRequest`: `Data *string`, `QueryParams *string`,
`Headers map[string]string` (`none` is the nil pointer, resp. the nil map). -/
structure MeteoraRequest where
  Data : Option String
  QueryParams : Option String
  Headers : Option GoMap
deriving DecidableEq, Repr

/-- The struct `MeteoraQuoteRequest`. -/
structure MeteoraQuoteRequest where
  PairID : String
deriving DecidableEq, Repr

/-- An `httpclient.Client` handle: the timeout it was configured with and the
serial number of its construction (its identity). -/
structure Client where
  timeoutMs : Nat
  serial : Nat
deriving DecidableEq, Repr

/-- The `sync.Pool` of the receiver as an explicit collection of idle handles,
together with the number of handles its `New` function has constructed. -/
structure Pool where
  idle : List Client
  made : Nat
deriving DecidableEq, Repr

/-- The struct `Meteora`. -/
structure Meteora where
  BaseUrl : String
  pool : Pool
deriving DecidableEq, Repr

/-- The constructor `NewMeteora(baseUrl)`: the pool starts with no idle handle. -/
def NewMeteora (baseUrl : String) : Meteora :=
  { BaseUrl := baseUrl, pool := { idle := [], made := 0 } }

/-- The call `pool.Get()`: removes an idle handle when there is one, otherwise calls the
pool's `New`, which constructs a client with `5000 * time.Millisecond`. -/
def Pool.Get (p : Pool) : Client × Pool :=
  match p.idle with
  | c :: rest => (c, { idle := rest, made := p.made })
  | [] => ({ timeoutMs := 5000, serial := p.made }, { idle := [], made := p.made + 1 })

/-! ## Header keys (`net/textproto`) -/

/-- The token bytes of a header field name (`validHeaderFieldByte`). -/
def validHeaderFieldByte (c : Char) : Bool :=
  c.isAlphanum || "!#$%&'*+-.^_`|~".toList.contains c

/-- The canonicalising loop of `canonicalMIMEHeaderKey`: upper case for the
first letter and for a letter after a dash, lower case for the others. -/
def canonLoop : Bool → List Char → List Char
  | _, [] => []
  | upper, c :: cs =>
    let c1 := if upper && c.isLower then c.toUpper
              else if !upper && c.isUpper then c.toLower else c
    c1 :: canonLoop (c1 == '-') cs

/-- The function `textproto.CanonicalMIMEHeaderKey`: a key with a byte that is not a token
byte (a space included) is returned as it is. -/
def CanonicalMIMEHeaderKey (s : String) : String :=
  if s.toList.all validHeaderFieldByte then String.mk (canonLoop true s.toList) else s

/-- An `http.Header` on which only `Set` is used: each key has at most one
value. -/
abbrev Header := String → Option String

/-- The header of a request fresh from `http.NewRequest`. -/
def Header.empty : Header := fun _ => none

/-- The method `Header.Set(key, value)`: replaces what is stored under the canonical form
of `key`. -/
def Header.Set (h : Header) (key value : String) : Header :=
  fun k => if k = CanonicalMIMEHeaderKey key then some value else h k

/-- An `http.Request` as far as this file determines it. -/
structure HttpRequest where
  /-- The field `Method`. -/
  method : String
  /-- The field `URL`, which `http.NewRequest` gets from `url.Parse`, in its
  string form `URL.String()`; it is not the text `http.NewRequest` was given. -/
  url : String
  /-- What the reader given as body holds. -/
  body : String
  /-- The field `Header`. -/
  header : Header

/-- The loop `for key, value := range data.Headers { req.Header.Set(key, value) }`
behind its nil check. -/
def setHeaders (req : HttpRequest) (headers : Option GoMap) : HttpRequest :=
  match headers with
  | none => req
  | some hs => hs.foldl (fun r kv => { r with header := r.header.Set kv.1 kv.2 }) req

/-! ## Results, memory and the environment -/

/-- A value of type `any` passed as `res`: the nil interface, a pointer (to the
cell with the given address; an address without a cell is a nil pointer), or a
value that is not of pointer kind. -/
inductive Any (V : Type) where
  | nil : Any V
  | ptr (a : Nat) : Any V
  | val (v : V) : Any V
deriving DecidableEq, Repr

/-- How a call ends: it returns an `error` (`none` is `nil`), or it aborts with
a run-time panic. -/
inductive Outcome (Err : Type) where
  | panic : Outcome Err
  | ret (err : Option Err) : Outcome Err
deriving DecidableEq, Repr

/-- The receiver, the requests handed to `client.Do` (oldest first, each with
the handle used), and the memory cells result pointers refer to. -/
structure State (V : Type) where
  m : Meteora
  sent : List (Client × HttpRequest)
  heap : List V

/-- A finished call. -/
structure Run (Err V : Type) where
  state : State V
  out : Outcome Err

/-- The library operations `meteora.go` calls. -/
structure Env (Err Resp Body V : Type) where
  /-- `json.Marshal(data)`. -/
  marshal : MeteoraRequest → Except Err String
  /-- The error of `http.NewRequest(method, url, _)`, if any. -/
  newRequestErr : String → String → Option Err
  /-- The URL of the request `http.NewRequest(_, url, _)` makes, which is
  `url.Parse(url)`, in its string form `URL.String()`. -/
  requestURL : String → String
  /-- `client.Do(req)`. -/
  doReq : Client → HttpRequest → Except Err Resp
  /-- `io.ReadAll(rsp.Body)`. -/
  readAll : Resp → Except Err Body
  /-- `json.Unmarshal(body, p)` for a pointer `p` to a cell: what the cell holds
  afterwards, and the error. -/
  unmarshal : Body → V → V × Option Err
  /-- `json.Unmarshal(body, &res)` when `res` holds no usable pointer: the
  decoded value is stored in the local `res`. -/
  unmarshalAny : Body → Option Err
  /-- `json.NewDecoder(rsp.Body).Decode(p)` for a pointer `p` to a cell. -/
  decode : Resp → V → V × Option Err
  /-- `json.NewDecoder(rsp.Body).Decode(p)` for a nil pointer `p`. -/
  decodeNil : Resp → Err
  /-- The zero value of the type of a value (`reflect.New(vv.Type())`). -/
  zeroOf : V → V

/-- The function `getPointer(v)`: `v` itself when it is of pointer kind, otherwise a
pointer to a new zero value of its type; `none` is the panic of
`reflect.Value.Type` on the zero `Value` of a nil interface. -/
def getPointer {V : Type} (zeroOf : V → V) (heap : List V) (v : Any V) :
    Option (List V × Any V) :=
  match v with
  | Any.nil => none
  | Any.ptr a => some (heap, Any.ptr a)
  | Any.val x => some (heap ++ [zeroOf x], Any.ptr heap.length)

/-! ## The dispatcher -/

variable {Err Resp Body V : Type}

/-- The call `json.Unmarshal(body, &res)` on the memory: when `res` holds a
pointer to a cell the decoder writes into that cell; otherwise it stores what
it decodes in the local variable `res`, and no cell changes. -/
def unmarshalInto (env : Env Err Resp Body V) (heap : List V) (res : Any V) (body : Body) :
    List V × Option Err :=
  match res with
  | Any.ptr a =>
    match heap.get? a with
    | some old => (heap.set a (env.unmarshal body old).1, (env.unmarshal body old).2)
    | none => (heap, env.unmarshalAny body)
  | _ => (heap, env.unmarshalAny body)

/-- The call `json.NewDecoder(rsp.Body).Decode(rcv)` on the memory: the decoder
writes into the cell `rcv` points to; a `rcv` that is no pointer to a cell is
rejected with an error. -/
def decodeInto (env : Env Err Resp Body V) (heap : List V) (rcv : Any V) (rsp : Resp) :
    List V × Option Err :=
  match rcv with
  | Any.ptr a =>
    match heap.get? a with
    | some old => (heap.set a (env.decode rsp old).1, (env.decode rsp old).2)
    | none => (heap, some (env.decodeNil rsp))
  | _ => (heap, some (env.decodeNil rsp))

/-- The method `(m *Meteora) getAndUnmarshalJson(res, path, data)`. -/
def getAndUnmarshalJson (env : Env Err Resp Body V) (s : State V) (res : Any V)
    (path : String) (data : MeteoraRequest) : Run Err V :=
  let client := s.m.pool.Get.1
  let s1 : State V := { s with m := { s.m with pool := s.m.pool.Get.2 } }
  match data.Data with
  | none => { state := s1, out := Outcome.panic }
  | some d =>
    let url := s.m.BaseUrl ++ path ++ d
    let url := match data.QueryParams with
      | some q => url ++ "?" ++ q
      | none => url
    match env.marshal data with
    | Except.error e => { state := s1, out := Outcome.ret (some e) }
    | Except.ok jB =>
      let dataReader := match data.Data with
        | some _ => jB
        | none => ""
      match env.newRequestErr "GET" url with
      | some e => { state := s1, out := Outcome.ret (some e) }
      | none =>
        let req := setHeaders
          { method := "GET", url := env.requestURL url, body := dataReader,
            header := Header.empty }
          data.Headers
        let s2 : State V := { s1 with sent := s1.sent ++ [(client, req)] }
        match env.doReq client req with
        | Except.error e => { state := s2, out := Outcome.ret (some e) }
        | Except.ok rsp =>
          match env.readAll rsp with
          | Except.error e => { state := s2, out := Outcome.ret (some e) }
          | Except.ok body =>
            let r := unmarshalInto env s2.heap res body
            { state := { s2 with heap := r.1 }, out := Outcome.ret r.2 }

/-- The method `(m *Meteora) postAndUnmarshalJson(res, path, data)`. -/
def postAndUnmarshalJson (env : Env Err Resp Body V) (s : State V) (res : Any V)
    (path : String) (data : MeteoraRequest) : Run Err V :=
  let client := s.m.pool.Get.1
  let s1 : State V := { s with m := { s.m with pool := s.m.pool.Get.2 } }
  let url := s.m.BaseUrl ++ path
  let url := match data.QueryParams with
    | some q => url ++ "?" ++ q
    | none => url
  match env.marshal data with
  | Except.error e => { state := s1, out := Outcome.ret (some e) }
  | Except.ok jB =>
    let dataReader := match data.Data with
      | some _ => jB
      | none => ""
    match env.newRequestErr "POST" url with
    | some e => { state := s1, out := Outcome.ret (some e) }
    | none =>
      let req0 : HttpRequest :=
        { method := "POST", url := env.requestURL url, body := dataReader,
          header := Header.empty }
      let req1 := { req0 with
        header := req0.header.Set "content-type" "application/x-www-form-urlencoded" }
      let req2 := { req1 with header := req1.header.Set "Cache-Content" "no-cache" }
      let req := setHeaders req2 data.Headers
      match getPointer env.zeroOf s1.heap res with
      | none => { state := s1, out := Outcome.panic }
      | some (heap, rcv) =>
        let s2 : State V := { s1 with sent := s1.sent ++ [(client, req)], heap := heap }
        match env.doReq client req with
        | Except.error e => { state := s2, out := Outcome.ret (some e) }
        | Except.ok rsp =>
          let r := decodeInto env s2.heap rcv rsp
          { state := { s2 with heap := r.1 }, out := Outcome.ret r.2 }

/-- The method `(m *Meteora) Get(res, path, data)`. -/
def Get (env : Env Err Resp Body V) (s : State V) (res : Any V)
    (path : String) (data : MeteoraRequest) : Run Err V :=
  getAndUnmarshalJson env s res path data

/-- The method `(m *Meteora) Post(res, path, data)`. -/
def Post (env : Env Err Resp Body V) (s : State V) (res : Any V)
    (path : String) (data : MeteoraRequest) : Run Err V :=
  postAndUnmarshalJson env s res path data

/-- The assignment `m[key] = value` on a map: the entry of `key` gets the new
value, a new key gets a new entry (where an entry stands in the list does not
matter here: `SwapQuote` takes the order of the visit as an argument). -/
def GoMap.assign (m : GoMap) (key value : String) : GoMap :=
  if m.any (fun kv => kv.1 == key) then
    m.map (fun kv => if kv.1 == key then (key, value) else kv)
  else m ++ [(key, value)]

/-- The value of `m[key]`, if the key is present. -/
def GoMap.find (m : GoMap) (key : String) : Option String :=
  (m.find? (fun kv => kv.1 == key)).map Prod.snd

/-- The `User-Agent` value `SwapQuote` sets. -/
def userAgent : String :=
  "Mozilla/5.0 (Macintosh; Intel Mac OS X 10_15_7) AppleWebKit/537.36 (KHTML, like Gecko) Chrome/125.0.0.0 Safari/537.36"

/-- The method `(m *Meteora) SwapQuote(res, headers, data)`; assigning to an entry of a
nil map panics. The order in which the `range` loop of `getAndUnmarshalJson`
then visits the entries of the map is not fixed by the assignments: `visit`
gives, for the map after them, its entries in the order of that visit (a
permutation of them). -/
def SwapQuote (env : Env Err Resp Body V) (s : State V) (res : Any V)
    (headers : Option GoMap) (data : MeteoraQuoteRequest) (visit : GoMap → GoMap) :
    Run Err V :=
  match headers with
  | none => { state := s, out := Outcome.panic }
  | some h =>
    let h := h.assign "User-Agent" userAgent
    let h := h.assign "Cache-Content" "no-cache"
    getAndUnmarshalJson env s res "/clmm-api/pair/"
      { Headers := some (visit h), Data := some data.PairID, QueryParams := none }

/-! ## A sample environment -/

/-- A JSON value of a response member: a string or a number. -/
inductive JVal where
  | str (s : String) : JVal
  | num (n : Int) : JVal
deriving DecidableEq, Repr

/-- Two of the fields of `MeteoraData`: `name` and `bin_step`. -/
structure PoolRecord where
  name : String
  binStep : Int
deriving DecidableEq, Repr

/-- Decoding one member of a JSON object into a `PoolRecord` the way
`encoding/json` does: the name of a member is compared with the field names
without regard to the case of ASCII letters; a value of the wrong JSON type,
or a number outside the 64 bits of `int`, leaves the field alone and is
recorded as the error unless an earlier error is recorded already, and
decoding goes on; a member that names no field is skipped. -/
def decodeMember (acc : PoolRecord × Option String) (kv : String × JVal) :
    PoolRecord × Option String :=
  if String.mk (kv.1.toList.map Char.toLower) = "name" then
    match kv.2 with
    | JVal.str s => ({ acc.1 with name := s }, acc.2)
    | JVal.num _ => (acc.1, match acc.2 with
        | some e => some e
        | none => some "json: cannot unmarshal number into Go struct field MeteoraData.name of type string")
  else if String.mk (kv.1.toList.map Char.toLower) = "bin_step" then
    match kv.2 with
    | JVal.num n =>
      if -9223372036854775808 ≤ n ∧ n ≤ 9223372036854775807 then
        ({ acc.1 with binStep := n }, acc.2)
      else (acc.1, match acc.2 with
        | some e => some e
        | none => some "json: cannot unmarshal number into Go struct field MeteoraData.bin_step of type int")
    | JVal.str _ => (acc.1, match acc.2 with
        | some e => some e
        | none => some "json: cannot unmarshal string into Go struct field MeteoraData.bin_step of type int")
  else acc

/-- Decoding a JSON object, given by its members, into a `PoolRecord`. -/
def decodeObject (body : List (String × JVal)) (old : PoolRecord) :
    PoolRecord × Option String :=
  body.foldl decodeMember (old, none)

/-- A stand-in for `json.Marshal` on a `MeteoraRequest`: a JSON object with the
header entries in the order given and the strings unescaped (`json.Marshal`
sorts the keys of a map and escapes strings). No statement below reads it. -/
def renderRequest (data : MeteoraRequest) : String :=
  let str := fun (s : String) => "\"" ++ s ++ "\""
  let opt := fun (o : Option String) => match o with
    | some s => str s
    | none => "null"
  let hdr := match data.Headers with
    | some hs => "\x7b" ++ ",".intercalate (hs.map fun kv => str kv.1 ++ ":" ++ str kv.2) ++ "\x7d"
    | none => "null"
  "\x7b\"Data\":" ++ opt data.Data ++ ",\"QueryParams\":" ++ opt data.QueryParams
    ++ ",\"Headers\":" ++ hdr ++ "\x7d"

/-- The call `strings.Cut(s, sep)` for a separator of one byte: what stands before the
first `sep`, what stands after it, and whether there is one. -/
def cut (sep : Char) : List Char → List Char × List Char × Bool
  | [] => ([], [], false)
  | c :: cs =>
    if c = sep then ([], cs, true)
    else ((c :: (cut sep cs).1), (cut sep cs).2.1, (cut sep cs).2.2)

/-- The parts of a URL that `net/url` escapes differently. -/
inductive Encoding where
  | path : Encoding
  | host : Encoding
  | fragment : Encoding
deriving DecidableEq, Repr

/-- The function `shouldEscape(c, mode)` of `net/url` for an ASCII character. -/
def shouldEscape (c : Char) (mode : Encoding) : Bool :=
  if c.isAlphanum then false
  else if mode = Encoding.host && "!$&'()*+,;=:[]<>\"".toList.contains c then false
  else if "-_.~".toList.contains c then false
  else if "$&+,/:;=?@".toList.contains c && mode = Encoding.path then c == '?'
  else if "$&+,/:;=?@".toList.contains c && mode = Encoding.fragment then false
  else if mode = Encoding.fragment && "!()*".toList.contains c then false
  else true

/-- The function `validEncoded(s, mode)` of `net/url`. -/
def validEncoded (s : List Char) (mode : Encoding) : Bool :=
  s.all fun c => "!$&'()*+,;=:@[]%".toList.contains c || !(c.toNat ≥ 128 || shouldEscape c mode)

/-- The function `ishex` of `net/url`. -/
def ishex (c : Char) : Bool :=
  c.isDigit || ('a'.toNat ≤ c.toNat && c.toNat ≤ 'f'.toNat) ||
    ('A'.toNat ≤ c.toNat && c.toNat ≤ 'F'.toNat)

/-- The function `unhex` of `net/url`, on a hexadecimal digit. -/
def unhex (c : Char) : Nat :=
  if c.isDigit then c.toNat - 48
  else if 'a'.toNat ≤ c.toNat && c.toNat ≤ 'f'.toNat then c.toNat - 97 + 10
  else c.toNat - 65 + 10

/-- The three characters `%XY` for a byte, in upper case. -/
def pct (b : Nat) : List Char :=
  ['%', "0123456789ABCDEF".toList.getD (b / 16) '0', "0123456789ABCDEF".toList.getD (b % 16) '0']

/-- Whether every `%` is followed by two hexadecimal digits. -/
def escapesOk : List Char → Bool
  | [] => true
  | '%' :: a :: b :: rest => ishex a && ishex b && escapesOk rest
  | '%' :: _ => false
  | _ :: rest => escapesOk rest

/-- The composition `escape(unescape(s, mode), mode)` of `net/url` on a string whose escapes
are in order: a byte is written as it is when `shouldEscape` lets it, and as `%XY`
otherwise. -/
def reescape (mode : Encoding) : List Char → List Char
  | [] => []
  | '%' :: a :: b :: rest =>
    (if 16 * unhex a + unhex b < 128 && !shouldEscape (Char.ofNat (16 * unhex a + unhex b)) mode
      then [Char.ofNat (16 * unhex a + unhex b)] else pct (16 * unhex a + unhex b))
      ++ reescape mode rest
  | c :: rest =>
    (if c.toNat < 128 && !shouldEscape c mode then [c]
      else (String.utf8EncodeChar c).flatMap fun b => pct b.toNat) ++ reescape mode rest

/-- The methods `EscapedPath` and `EscapedFragment`, from the text that was parsed. -/
def escaped (mode : Encoding) (raw : List Char) : List Char :=
  if validEncoded raw mode then raw else reescape mode raw

/-- The function `getScheme`: the scheme and the rest, when the text starts with
a scheme and a colon. -/
def getScheme (s : List Char) : List Char × List Char :=
  let name := s.takeWhile fun c => c.isAlphanum || "+-.".toList.contains c
  match s.drop name.length with
  | ':' :: rest =>
    match name with
    | c :: _ => if c.isAlpha then (name, rest) else ([], s)
    | [] => ([], s)
  | _ => ([], s)

/-- The function `removeEmptyPort` of `net/http`: a host that ends in a colon
loses it. -/
def removeEmptyPort (host : List Char) : List Char :=
  if host.getLast? = some ':' then host.dropLast else host

/-- The string form `URL.String()` of the URL of the request that
`http.NewRequest` makes of a text `url.Parse` accepts, for a URL without user
information: the scheme in lower case, the host, the path and the fragment
escaped as `net/url` writes them, the query as it was given. -/
def urlString (raw : String) : String :=
  let u := (cut '#' raw.toList).1
  let frag := (cut '#' raw.toList).2.1
  let scheme := (getScheme u).1.map Char.toLower
  let rest0 := (getScheme u).2
  let rest := (cut '?' rest0).1
  let query := if (cut '?' rest0).2.2 then '?' :: (cut '?' rest0).2.1 else []
  let tail := query ++ (if frag = [] then [] else '#' :: escaped Encoding.fragment frag)
  let pre := if scheme = [] then [] else scheme ++ [':']
  if scheme ≠ [] && rest.head? ≠ some '/' then String.mk (pre ++ rest ++ tail)
  else if (scheme ≠ [] || rest.take 3 ≠ "///".toList) && rest.take 2 = "//".toList then
    let host := (rest.drop 2).takeWhile (· != '/')
    let path := (rest.drop 2).dropWhile (· != '/')
    String.mk (pre ++ (if removeEmptyPort host ≠ [] || path ≠ [] then "//".toList else [])
      ++ reescape Encoding.host (removeEmptyPort host) ++ escaped Encoding.path path ++ tail)
  else
    String.mk (pre ++ escaped Encoding.path rest ++ tail)

/-- The error of `url.Parse`, if any, for a URL without user information: a
control character, a missing scheme before a colon, a colon in the first
segment of a relative path, a character a host cannot have, a port that is
not a number, a `%` that starts no escape. -/
def parseErr (raw : String) : Option String :=
  let u := (cut '#' raw.toList).1
  let frag := (cut '#' raw.toList).2.1
  let scheme := (getScheme u).1
  let rest := (cut '?' (getScheme u).2).1
  let authority := (scheme ≠ [] || rest.take 3 ≠ "///".toList) && rest.take 2 = "//".toList
  let host := (rest.drop 2).takeWhile (· != '/')
  let path := if authority then (rest.drop 2).dropWhile (· != '/') else rest
  if u.any (fun c => c.toNat < 32 || c.toNat == 127) then
    some "net/url: invalid control character in URL"
  else if u.head? = some ':' then some "missing protocol scheme"
  else if scheme = [] && rest.head? ≠ some '/' && (rest.takeWhile (· != '/')).contains ':' then
    some "first path segment in URL cannot contain colon"
  else if scheme ≠ [] && rest.head? ≠ some '/' then
    (if escapesOk frag then none else some "invalid URL escape")
  else if authority && host.any (fun c => c.toNat < 128 && c != '%' && shouldEscape c Encoding.host)
    then some "invalid character in host name"
  else if authority && host.head? ≠ some '[' && host.contains ':' &&
      ((cut ':' host.reverse).1.any fun c => !c.isDigit) then some "invalid port after host"
  else if authority && !escapesOk host then some "invalid URL escape"
  else if !escapesOk path then some "invalid URL escape"
  else if !escapesOk frag then some "invalid URL escape"
  else none

/-- An environment with errors as strings in which every request gets the
given reply: a transport error, or a JSON object given by its members.
`http.NewRequest` fails as `url.Parse` does (`parseErr`) and gives the request
the URL with the string form `urlString`. -/
def sampleEnv (reply : Except String (List (String × JVal))) :
    Env String (List (String × JVal)) (List (String × JVal)) PoolRecord where
  marshal := fun data => Except.ok (renderRequest data)
  newRequestErr := fun _ url => parseErr url
  requestURL := urlString
  doReq := fun _ _ => reply
  readAll := fun rsp => Except.ok rsp
  unmarshal := decodeObject
  unmarshalAny := fun _ => none
  decode := decodeObject
  decodeNil := fun _ => "json: Unmarshal(nil *meteora.MeteoraData)"
  zeroOf := fun _ => { name := "", binStep := 0 }

/-- The state right after `NewMeteora(baseUrl)`, with the given memory cells. -/
def initState {V : Type} (baseUrl : String) (heap : List V) : State V :=
  { m := NewMeteora baseUrl, sent := [], heap := heap }



/-! ## The stages of a call

The URL, the request and the states of `getAndUnmarshalJson` and
`postAndUnmarshalJson`, named; `get_run` and `post_run` below show that the two
functions are made of them. -/

/-- The text a `Get` with payload `d` gives to `http.NewRequest` as URL. -/
def getUrl (base p d : String) (q : Option String) : String :=
  match q with
  | some qs => base ++ p ++ d ++ "?" ++ qs
  | none => base ++ p ++ d

/-- The text a `Post` gives to `http.NewRequest` as URL. -/
def postUrl (base p : String) (q : Option String) : String :=
  match q with
  | some qs => base ++ p ++ "?" ++ qs
  | none => base ++ p

/-- The request a `Get` with payload `d` builds from the encoded struct `jB`. -/
def getReq (env : Env Err Resp Body V) (base p d : String) (q : Option String)
    (h : Option GoMap) (jB : String) : HttpRequest :=
  setHeaders
    { method := "GET", url := env.requestURL (getUrl base p d q), body := jB,
      header := Header.empty } h

/-- The request a `Post` builds from the body `b`. -/
def postReq (env : Env Err Resp Body V) (base p : String) (q : Option String)
    (h : Option GoMap) (b : String) : HttpRequest :=
  setHeaders
    { method := "POST", url := env.requestURL (postUrl base p q), body := b,
      header := (Header.empty.Set "content-type" "application/x-www-form-urlencoded").Set
        "Cache-Content" "no-cache" } h

/-- The state once the client is taken from the pool. -/
def borrowed (s : State V) : State V :=
  { s with m := { s.m with pool := s.m.pool.Get.2 } }

/-- The state once `req` is handed to the client, with memory `heap`. -/
def dispatched (s : State V) (req : HttpRequest) (heap : List V) : State V :=
  { m := { s.m with pool := s.m.pool.Get.2 },
    sent := s.sent ++ [(s.m.pool.Get.1, req)], heap := heap }

/-- The body of a `Post`: the encoded struct when a payload is present. -/
def postBody (d : Option String) (jB : String) : String :=
  match d with
  | some _ => jB
  | none => ""

/-- The requests a `Get` with payload `d` hands to the client. -/
def getDispatch (env : Env Err Resp Body V) (s : State V)
    (p d : String) (q : Option String) (h : Option GoMap) : List (Client × HttpRequest) :=
  match env.marshal { Data := some d, QueryParams := q, Headers := h } with
  | Except.error _ => []
  | Except.ok jB =>
    match env.newRequestErr "GET" (getUrl s.m.BaseUrl p d q) with
    | some _ => []
    | none => [(s.m.pool.Get.1, getReq env s.m.BaseUrl p d q h jB)]

/-- The requests a `Post` hands to the client. -/
def postDispatch (env : Env Err Resp Body V) (s : State V) (res : Any V)
    (p : String) (data : MeteoraRequest) : List (Client × HttpRequest) :=
  match env.marshal data with
  | Except.error _ => []
  | Except.ok jB =>
    match env.newRequestErr "POST" (postUrl s.m.BaseUrl p data.QueryParams) with
    | some _ => []
    | none =>
      match getPointer env.zeroOf s.heap res with
      | none => []
      | some _ => [(s.m.pool.Get.1,
          postReq env s.m.BaseUrl p data.QueryParams data.Headers (postBody data.Data jB))]

/-! ## The canonical form of some keys -/

theorem canonical_examples :
    CanonicalMIMEHeaderKey "accept-encoding" = "Accept-Encoding" ∧
    CanonicalMIMEHeaderKey "content-type" = "Content-Type" ∧
    CanonicalMIMEHeaderKey "Content-Type" = "Content-Type" ∧
    CanonicalMIMEHeaderKey "Cache-Content" = "Cache-Content" ∧
    CanonicalMIMEHeaderKey "uSER-aGENT" = "User-Agent" ∧
    CanonicalMIMEHeaderKey "x-a" = "X-A" ∧
    CanonicalMIMEHeaderKey "content type" = "content type" := by
  decide

/-! ## Lemmas on the header loop -/

section HeaderLoop

/-- One round of the header loop. -/
theorem foldSet_cons (req : HttpRequest) (kv : String × String) (hs : GoMap) :
    setHeaders req (some (kv :: hs))
      = setHeaders { req with header := req.header.Set kv.1 kv.2 } (some hs) := by
  simp [setHeaders]

theorem setHeaders_method (req : HttpRequest) (h : Option GoMap) :
    (setHeaders req h).method = req.method := by
  cases h with
  | none => rfl
  | some hs =>
    induction hs generalizing req with
    | nil => rfl
    | cons kv t ih => rw [foldSet_cons, ih]

theorem setHeaders_url (req : HttpRequest) (h : Option GoMap) :
    (setHeaders req h).url = req.url := by
  cases h with
  | none => rfl
  | some hs =>
    induction hs generalizing req with
    | nil => rfl
    | cons kv t ih => rw [foldSet_cons, ih]

theorem setHeaders_body (req : HttpRequest) (h : Option GoMap) :
    (setHeaders req h).body = req.body := by
  cases h with
  | none => rfl
  | some hs =>
    induction hs generalizing req with
    | nil => rfl
    | cons kv t ih => rw [foldSet_cons, ih]

/-- A key that is the canonical form of no entry keeps what it had. -/
theorem setHeaders_header_of_absent (hs : GoMap) (req : HttpRequest) (K : String)
    (hK : ∀ kv ∈ hs, CanonicalMIMEHeaderKey kv.1 ≠ K) :
    (setHeaders req (some hs)).header K = req.header K := by
  induction hs generalizing req with
  | nil => rfl
  | cons kv t ih =>
    rw [foldSet_cons, ih _ (fun x hx => hK x (List.mem_cons_of_mem _ hx))]
    have h1 : K ≠ CanonicalMIMEHeaderKey kv.1 := fun h => hK kv (List.mem_cons_self _ _) h.symm
    simp [Header.Set, h1]

/-- The entry that is the only one of its canonical name is on the request. -/
theorem setHeaders_header_of_single (hs : GoMap) (req : HttpRequest) (k v : String)
    (hone : hs.filter (fun kv => CanonicalMIMEHeaderKey kv.1 = CanonicalMIMEHeaderKey k)
      = [(k, v)]) :
    (setHeaders req (some hs)).header (CanonicalMIMEHeaderKey k) = some v := by
  induction hs generalizing req with
  | nil => simp at hone
  | cons kv t ih =>
    rw [foldSet_cons]
    by_cases hkv : CanonicalMIMEHeaderKey kv.1 = CanonicalMIMEHeaderKey k
    · rw [List.filter_cons_of_pos (by simpa using hkv)] at hone
      have hhead : kv = (k, v) := (List.cons.inj hone).1
      have htail := (List.cons.inj hone).2
      rw [setHeaders_header_of_absent]
      · simp [Header.Set, hhead]
      · intro x hx hxk
        have : x ∈ t.filter (fun kv => CanonicalMIMEHeaderKey kv.1 = CanonicalMIMEHeaderKey k) :=
          List.mem_filter.mpr ⟨hx, by simpa using hxk⟩
        rw [htail] at this
        exact absurd this (List.not_mem_nil _)
    · rw [List.filter_cons_of_neg (by simpa using hkv)] at hone
      exact ih _ hone

/-- Of the entries of one canonical name, the one visited last is on the
request. -/
theorem setHeaders_header_of_last (hs : GoMap) (req : HttpRequest) (k v : String)
    (hlast : (hs.filter
      (fun kv => CanonicalMIMEHeaderKey kv.1 = CanonicalMIMEHeaderKey k)).getLast? = some (k, v)) :
    (setHeaders req (some hs)).header (CanonicalMIMEHeaderKey k) = some v := by
  induction hs generalizing req with
  | nil => simp at hlast
  | cons x t ih =>
    rw [foldSet_cons]
    cases hft : t.filter (fun kv => CanonicalMIMEHeaderKey kv.1 = CanonicalMIMEHeaderKey k) with
    | nil =>
      by_cases hx : CanonicalMIMEHeaderKey x.1 = CanonicalMIMEHeaderKey k
      · rw [List.filter_cons_of_pos (by simpa using hx), hft] at hlast
        have hxe : x = (k, v) := by simpa using hlast
        rw [setHeaders_header_of_absent]
        · simp [Header.Set, hxe]
        · intro y hy hyk
          have : y ∈ t.filter
              (fun kv => CanonicalMIMEHeaderKey kv.1 = CanonicalMIMEHeaderKey k) :=
            List.mem_filter.mpr ⟨hy, by simpa using hyk⟩
          rw [hft] at this
          exact absurd this (List.not_mem_nil _)
      · rw [List.filter_cons_of_neg (by simpa using hx), hft] at hlast
        simp at hlast
    | cons y l =>
      apply ih
      by_cases hx : CanonicalMIMEHeaderKey x.1 = CanonicalMIMEHeaderKey k
      · rw [List.filter_cons_of_pos (by simpa using hx), hft, List.getLast?_cons_cons] at hlast
        rw [hft]
        exact hlast
      · rw [List.filter_cons_of_neg (by simpa using hx), hft] at hlast
        rw [hft]
        exact hlast

/-- With pairwise distinct canonical names, each entry is the only one of its
canonical name. -/
theorem filter_canon_of_nodup (hs : GoMap)
    (hnd : (hs.map fun kv => CanonicalMIMEHeaderKey kv.1).Nodup) (k v : String)
    (hmem : (k, v) ∈ hs) :
    hs.filter (fun kv => CanonicalMIMEHeaderKey kv.1 = CanonicalMIMEHeaderKey k) = [(k, v)] := by
  induction hs with
  | nil => simp at hmem
  | cons kv t ih =>
    rw [List.map_cons, List.nodup_cons] at hnd
    rcases List.mem_cons.mp hmem with hkv | ht
    · subst hkv
      rw [List.filter_cons_of_pos (by simp)]
      congr 1
      apply List.filter_eq_nil_iff.mpr
      intro x hx hxk
      exact hnd.1 (List.mem_map.mpr ⟨x, hx, by simpa using hxk⟩)
    · have hne : CanonicalMIMEHeaderKey kv.1 ≠ CanonicalMIMEHeaderKey k := by
        intro h
        exact hnd.1 (List.mem_map.mpr ⟨(k, v), ht, h.symm⟩)
      rw [List.filter_cons_of_neg (by simpa using hne)]
      exact ih hnd.2 ht

/-- The header loop does not depend on the visiting order when the canonical
names are pairwise distinct. -/
theorem setHeaders_perm (l1 l2 : GoMap) (req : HttpRequest) (hp : l1.Perm l2)
    (hnd : (l1.map fun kv => CanonicalMIMEHeaderKey kv.1).Nodup) :
    setHeaders req (some l1) = setHeaders req (some l2) := by
  have hnd2 : (l2.map fun kv => CanonicalMIMEHeaderKey kv.1).Nodup :=
    (hp.map _).nodup_iff.mp hnd
  have hh : (setHeaders req (some l1)).header = (setHeaders req (some l2)).header := by
    funext K
    by_cases hex : ∃ kv ∈ l1, CanonicalMIMEHeaderKey kv.1 = K
    · obtain ⟨⟨k, v⟩, hmem, hk⟩ := hex
      subst hk
      rw [setHeaders_header_of_single l1 req k v (filter_canon_of_nodup l1 hnd k v hmem),
        setHeaders_header_of_single l2 req k v
          (filter_canon_of_nodup l2 hnd2 k v (hp.mem_iff.mp hmem))]
    · have h1 : ∀ kv ∈ l1, CanonicalMIMEHeaderKey kv.1 ≠ K := fun kv hkv h => hex ⟨kv, hkv, h⟩
      have h2 : ∀ kv ∈ l2, CanonicalMIMEHeaderKey kv.1 ≠ K :=
        fun kv hkv h => hex ⟨kv, hp.mem_iff.mpr hkv, h⟩
      rw [setHeaders_header_of_absent l1 req K h1, setHeaders_header_of_absent l2 req K h2]
  have hm := (setHeaders_method req (some l1)).trans (setHeaders_method req (some l2)).symm
  have hu := (setHeaders_url req (some l1)).trans (setHeaders_url req (some l2)).symm
  have hb := (setHeaders_body req (some l1)).trans (setHeaders_body req (some l2)).symm
  cases h1 : setHeaders req (some l1)
  cases h2 : setHeaders req (some l2)
  simp only [h1, h2] at hh hm hu hb
  simp [hh, hm, hu, hb]

/-- The header the loop builds does not depend on the other fields. -/
theorem setHeaders_header_irrel (m1 u1 b1 m2 u2 b2 : String) (hd : Header)
    (h : Option GoMap) :
    (setHeaders { method := m1, url := u1, body := b1, header := hd } h).header
      = (setHeaders { method := m2, url := u2, body := b2, header := hd } h).header := by
  cases h with
  | none => rfl
  | some hs =>
    induction hs generalizing hd with
    | nil => rfl
    | cons kv t ih => rw [foldSet_cons, foldSet_cons]; exact ih _

end HeaderLoop

/-! ## The runs of `Get` and `Post`, stage by stage -/

section Runs

theorem get_run (env : Env Err Resp Body V) (s : State V) (res : Any V)
    (p d : String) (q : Option String) (h : Option GoMap) :
    Get env s res p { Data := some d, QueryParams := q, Headers := h } =
      match env.marshal { Data := some d, QueryParams := q, Headers := h } with
      | Except.error e => { state := borrowed s, out := Outcome.ret (some e) }
      | Except.ok jB =>
        match env.newRequestErr "GET" (getUrl s.m.BaseUrl p d q) with
        | some e => { state := borrowed s, out := Outcome.ret (some e) }
        | none =>
          match env.doReq s.m.pool.Get.1 (getReq env s.m.BaseUrl p d q h jB) with
          | Except.error e =>
            { state := dispatched s (getReq env s.m.BaseUrl p d q h jB) s.heap,
              out := Outcome.ret (some e) }
          | Except.ok rsp =>
            match env.readAll rsp with
            | Except.error e =>
              { state := dispatched s (getReq env s.m.BaseUrl p d q h jB) s.heap,
                out := Outcome.ret (some e) }
            | Except.ok body =>
              { state := dispatched s (getReq env s.m.BaseUrl p d q h jB)
                  (unmarshalInto env s.heap res body).1,
                out := Outcome.ret (unmarshalInto env s.heap res body).2 } := by
  cases q <;> rfl

theorem get_run_nil (env : Env Err Resp Body V) (s : State V) (res : Any V)
    (p : String) (q : Option String) (h : Option GoMap) :
    Get env s res p { Data := none, QueryParams := q, Headers := h } =
      { state := borrowed s, out := Outcome.panic } := rfl

theorem post_run (env : Env Err Resp Body V) (s : State V) (res : Any V)
    (p : String) (data : MeteoraRequest) :
    Post env s res p data =
      match env.marshal data with
      | Except.error e => { state := borrowed s, out := Outcome.ret (some e) }
      | Except.ok jB =>
        match env.newRequestErr "POST" (postUrl s.m.BaseUrl p data.QueryParams) with
        | some e => { state := borrowed s, out := Outcome.ret (some e) }
        | none =>
          match getPointer env.zeroOf s.heap res with
          | none => { state := borrowed s, out := Outcome.panic }
          | some hr =>
            match env.doReq s.m.pool.Get.1
                (postReq env s.m.BaseUrl p data.QueryParams data.Headers (postBody data.Data jB)) with
            | Except.error e =>
              { state := dispatched s
                  (postReq env s.m.BaseUrl p data.QueryParams data.Headers (postBody data.Data jB))
                  hr.1,
                out := Outcome.ret (some e) }
            | Except.ok rsp =>
              { state := dispatched s
                  (postReq env s.m.BaseUrl p data.QueryParams data.Headers (postBody data.Data jB))
                  (decodeInto env hr.1 hr.2 rsp).1,
                out := Outcome.ret (decodeInto env hr.1 hr.2 rsp).2 } := by
  obtain ⟨d, q, h⟩ := data
  cases hg : getPointer env.zeroOf s.heap res with
  | none => cases q <;> cases d <;> simp only [Post, postAndUnmarshalJson, hg] <;> rfl
  | some hr =>
    obtain ⟨heap, rcv⟩ := hr
    cases q <;> cases d <;> simp only [Post, postAndUnmarshalJson, hg] <;> rfl

theorem mem_getDispatch (env : Env Err Resp Body V) (s : State V)
    (p d : String) (q : Option String) (h : Option GoMap) (cr : Client × HttpRequest)
    (hcr : cr ∈ getDispatch env s p d q h) :
    ∃ jB, env.marshal { Data := some d, QueryParams := q, Headers := h } = Except.ok jB ∧
      env.newRequestErr "GET" (getUrl s.m.BaseUrl p d q) = none ∧
      cr = (s.m.pool.Get.1, getReq env s.m.BaseUrl p d q h jB) := by
  unfold getDispatch at hcr
  rcases hm : env.marshal (MeteoraRequest.mk (some d) q h) with e | jB
  · simp [hm] at hcr
  rcases hn : env.newRequestErr "GET" (getUrl s.m.BaseUrl p d q) with _ | e
  · simp only [hm, hn, List.mem_singleton] at hcr
    exact ⟨jB, rfl, rfl, hcr⟩
  · simp [hm, hn] at hcr

theorem getDispatch_of_ok (env : Env Err Resp Body V) (s : State V)
    (p d : String) (q : Option String) (h : Option GoMap) (jB : String)
    (hm : env.marshal { Data := some d, QueryParams := q, Headers := h } = Except.ok jB)
    (hn : env.newRequestErr "GET" (getUrl s.m.BaseUrl p d q) = none) :
    getDispatch env s p d q h = [(s.m.pool.Get.1, getReq env s.m.BaseUrl p d q h jB)] := by
  simp [getDispatch, hm, hn]

theorem mem_postDispatch (env : Env Err Resp Body V) (s : State V) (res : Any V)
    (p : String) (data : MeteoraRequest) (cr : Client × HttpRequest)
    (hcr : cr ∈ postDispatch env s res p data) :
    ∃ jB, env.marshal data = Except.ok jB ∧
      env.newRequestErr "POST" (postUrl s.m.BaseUrl p data.QueryParams) = none ∧
      cr = (s.m.pool.Get.1,
        postReq env s.m.BaseUrl p data.QueryParams data.Headers (postBody data.Data jB)) := by
  unfold postDispatch at hcr
  rcases hm : env.marshal data with e | jB
  · simp [hm] at hcr
  rcases hn : env.newRequestErr "POST" (postUrl s.m.BaseUrl p data.QueryParams) with _ | e
  · rcases hg : getPointer env.zeroOf s.heap res with _ | hr
    · simp [hm, hn, hg] at hcr
    · simp only [hm, hn, hg, List.mem_singleton] at hcr
      exact ⟨jB, rfl, rfl, hcr⟩
  · simp [hm, hn] at hcr

theorem postDispatch_of_ok (env : Env Err Resp Body V) (s : State V) (res : Any V)
    (p : String) (data : MeteoraRequest) (jB : String)
    (hm : env.marshal data = Except.ok jB)
    (hn : env.newRequestErr "POST" (postUrl s.m.BaseUrl p data.QueryParams) = none)
    (hres : res ≠ Any.nil) :
    postDispatch env s res p data = [(s.m.pool.Get.1,
      postReq env s.m.BaseUrl p data.QueryParams data.Headers (postBody data.Data jB))] := by
  cases res with
  | nil => exact absurd rfl hres
  | ptr a => simp [postDispatch, hm, hn, getPointer]
  | val v => simp [postDispatch, hm, hn, getPointer]

/-- What a `Get` with a payload adds to the log of dispatched requests. -/
theorem get_sent (env : Env Err Resp Body V) (s : State V) (res : Any V)
    (p d : String) (q : Option String) (h : Option GoMap) :
    (Get env s res p { Data := some d, QueryParams := q, Headers := h }).state.sent =
      s.sent ++ getDispatch env s p d q h := by
  rw [get_run, getDispatch]
  rcases hm : env.marshal { Data := some d, QueryParams := q, Headers := h } with e | jB
  · simp [borrowed]
  rcases hn : env.newRequestErr "GET" (getUrl s.m.BaseUrl p d q) with _ | e
  swap
  · simp [borrowed]
  rcases hd : env.doReq s.m.pool.Get.1 (getReq env s.m.BaseUrl p d q h jB) with e | rsp
  · simp [dispatched, hd]
  rcases hr : env.readAll rsp with e | body <;> simp [dispatched, hd, hr]

/-- What a `Post` adds to the log of dispatched requests. -/
theorem post_sent (env : Env Err Resp Body V) (s : State V) (res : Any V)
    (p : String) (data : MeteoraRequest) :
    (Post env s res p data).state.sent = s.sent ++ postDispatch env s res p data := by
  rw [post_run, postDispatch]
  rcases hm : env.marshal data with e | jB
  · simp [borrowed]
  rcases hn : env.newRequestErr "POST" (postUrl s.m.BaseUrl p data.QueryParams) with _ | e
  swap
  · simp [borrowed]
  rcases hg : getPointer env.zeroOf s.heap res with _ | hr
  · simp [borrowed]
  rcases hd : env.doReq s.m.pool.Get.1
    (postReq env s.m.BaseUrl p data.QueryParams data.Headers (postBody data.Data jB)) with e | rsp
    <;> simp [dispatched, hd]

/-- Every call of `Get` leaves the pool as taking the client left it. -/
theorem get_pool (env : Env Err Resp Body V) (s : State V) (res : Any V)
    (p : String) (data : MeteoraRequest) :
    (Get env s res p data).state.m = { s.m with pool := s.m.pool.Get.2 } := by
  obtain ⟨d, q, h⟩ := data
  cases d with
  | none => rfl
  | some d =>
    rw [get_run]
    rcases hm : env.marshal { Data := some d, QueryParams := q, Headers := h } with e | jB
    · rfl
    rcases hn : env.newRequestErr "GET" (getUrl s.m.BaseUrl p d q) with _ | e
    swap
    · rfl
    rcases hd : env.doReq s.m.pool.Get.1 (getReq env s.m.BaseUrl p d q h jB) with e | rsp
    · simp [dispatched, hd]
    rcases hr : env.readAll rsp with e | body <;> simp [dispatched, hd, hr]

/-- Every call of `Post` leaves the pool as taking the client left it. -/
theorem post_pool (env : Env Err Resp Body V) (s : State V) (res : Any V)
    (p : String) (data : MeteoraRequest) :
    (Post env s res p data).state.m = { s.m with pool := s.m.pool.Get.2 } := by
  rw [post_run]
  rcases hm : env.marshal data with e | jB
  · rfl
  rcases hn : env.newRequestErr "POST" (postUrl s.m.BaseUrl p data.QueryParams) with _ | e
  swap
  · rfl
  rcases hg : getPointer env.zeroOf s.heap res with _ | hr
  · rfl
  rcases hd : env.doReq s.m.pool.Get.1
    (postReq env s.m.BaseUrl p data.QueryParams data.Headers (postBody data.Data jB)) with e | rsp
    <;> simp [dispatched, hd]

end Runs

/-! ## URL, body and payload of the GET path -/

/-- C1, as the code has it: for a present payload `d`, the text a `Get` gives to
`http.NewRequest` as URL is exactly `BaseUrl ++ path ++ d` when there is no
query string and exactly `BaseUrl ++ path ++ d ++ "?" ++ q` for the query
string `q`, nothing in it escaped, dropped or altered; the URL of every
request the `Get` hands to the client is what `http.NewRequest` makes of this
text (and is this text where `http.NewRequest` keeps it). Nothing else is
dispatched, and one request is dispatched once encoding and request
construction succeed. -/
theorem get_url_of_concatenation (env : Env Err Resp Body V) (s : State V) (res : Any V)
    (p d : String) (q : Option String) (h : Option GoMap) :
    ∃ reqs : List (Client × HttpRequest),
      (Get env s res p { Data := some d, QueryParams := q, Headers := h }).state.sent
          = s.sent ++ reqs ∧
      (∀ cr ∈ reqs, cr.2.url = env.requestURL (match q with
          | none => s.m.BaseUrl ++ p ++ d
          | some qs => s.m.BaseUrl ++ p ++ d ++ "?" ++ qs)) ∧
      (env.requestURL (match q with
          | none => s.m.BaseUrl ++ p ++ d
          | some qs => s.m.BaseUrl ++ p ++ d ++ "?" ++ qs)
        = (match q with
          | none => s.m.BaseUrl ++ p ++ d
          | some qs => s.m.BaseUrl ++ p ++ d ++ "?" ++ qs) →
        ∀ cr ∈ reqs, cr.2.url = match q with
          | none => s.m.BaseUrl ++ p ++ d
          | some qs => s.m.BaseUrl ++ p ++ d ++ "?" ++ qs) ∧
      ((∃ jB, env.marshal { Data := some d, QueryParams := q, Headers := h } = Except.ok jB) →
        env.newRequestErr "GET" (match q with
          | none => s.m.BaseUrl ++ p ++ d
          | some qs => s.m.BaseUrl ++ p ++ d ++ "?" ++ qs) = none →
        reqs.length = 1) := by
  have hu : (match q with
      | none => s.m.BaseUrl ++ p ++ d
      | some qs => s.m.BaseUrl ++ p ++ d ++ "?" ++ qs) = getUrl s.m.BaseUrl p d q := by
    cases q <;> rfl
  rw [hu]
  have hurl : ∀ cr ∈ getDispatch env s p d q h,
      cr.2.url = env.requestURL (getUrl s.m.BaseUrl p d q) := by
    intro cr hcr
    obtain ⟨jB, -, -, rfl⟩ := mem_getDispatch env s p d q h cr hcr
    exact setHeaders_url _ _
  refine ⟨_, get_sent env s res p d q h, hurl, ?_, ?_⟩
  · intro hkeep cr hcr
    rw [hurl cr hcr, hkeep]
  · rintro ⟨jB, hm⟩ hn
    rw [getDispatch_of_ok env s p d q h jB hm hn]
    rfl

/-- C1 as stated fails: for the payload `a b`, `http.NewRequest` accepts the text
`https://api.example.com/p/a b`, and the request that goes to the client has
the URL `https://api.example.com/p/a%20b`, the space escaped; and for the
query string `x#y z` the URL ends with `?x#y%20z`, not with the query string
as supplied. -/
theorem get_url_verbatim_counterexample :
    (Get (sampleEnv (Except.ok []))
        (initState "https://api.example.com" [{ name := "", binStep := 0 }])
        (Any.ptr 0) "/p/" { Data := some "a b", QueryParams := none, Headers := none }).state.sent.map
        (fun cr => cr.2.url)
      = ["https://api.example.com/p/a%20b"] ∧
    "https://api.example.com/p/a%20b" ≠ "https://api.example.com" ++ "/p/" ++ "a b" ∧
    (Get (sampleEnv (Except.ok []))
        (initState "https://api.example.com" [{ name := "", binStep := 0 }])
        (Any.ptr 0) "/p/"
        { Data := some "A", QueryParams := some "x#y z", Headers := none }).state.sent.map
        (fun cr => cr.2.url)
      = ["https://api.example.com/p/A?x#y%20z"] ∧
    "https://api.example.com/p/A?x#y%20z"
      ≠ "https://api.example.com" ++ "/p/" ++ "A" ++ "?" ++ "x#y z" := by
  decide

/-- C3: every request a `Get` hands to the client has the method `GET` and as
body the output of `json.Marshal` on the whole request struct, never the
empty reader of the other branch; a `Get` without payload dispatches nothing,
and one with a payload dispatches one request once encoding and request
construction succeed. -/
theorem get_body_is_marshalled_request (env : Env Err Resp Body V) (s : State V)
    (res : Any V) (p : String) (data : MeteoraRequest) :
    ∃ reqs : List (Client × HttpRequest),
      (Get env s res p data).state.sent = s.sent ++ reqs ∧
      (∀ cr ∈ reqs, cr.2.method = "GET" ∧ env.marshal data = Except.ok cr.2.body) ∧
      (data.Data = none → reqs = []) ∧
      (∀ d jB, data.Data = some d → env.marshal data = Except.ok jB →
        env.newRequestErr "GET" (match data.QueryParams with
          | none => s.m.BaseUrl ++ p ++ d
          | some qs => s.m.BaseUrl ++ p ++ d ++ "?" ++ qs) = none →
        reqs.length = 1) := by
  obtain ⟨dd, q, h⟩ := data
  cases dd with
  | none => exact ⟨[], by simp [get_run_nil, borrowed], by simp, by simp, by simp⟩
  | some d =>
    have hu : (match q with
        | none => s.m.BaseUrl ++ p ++ d
        | some qs => s.m.BaseUrl ++ p ++ d ++ "?" ++ qs) = getUrl s.m.BaseUrl p d q := by
      cases q <;> rfl
    refine ⟨_, get_sent env s res p d q h, ?_, by simp, ?_⟩
    · intro cr hcr
      obtain ⟨jB, hm, -, rfl⟩ := mem_getDispatch env s p d q h cr hcr
      exact ⟨setHeaders_method _ _, by rw [hm, getReq, setHeaders_body]⟩
    · intro d1 jB hd hm hn
      simp only [Option.some.injEq] at hd
      subst hd
      simp only [hu] at hn
      rw [getDispatch_of_ok env s p _ q h jB hm hn]
      rfl

/-- C5: a `Get` whose request has no payload (`Data = nil`) aborts with a panic
at the dereference of the payload, with or without query string and headers:
it does not return, and no request is dispatched. -/
theorem get_nil_payload_panics (env : Env Err Resp Body V) (s : State V) (res : Any V)
    (p : String) (q : Option String) (h : Option GoMap) :
    (Get env s res p { Data := none, QueryParams := q, Headers := h }).out = Outcome.panic ∧
    (Get env s res p { Data := none, QueryParams := q, Headers := h }).state.sent = s.sent := by
  simp [get_run_nil, borrowed]


/-- The sibling path: a `Post` without payload does not abort; it returns, and
what it dispatches has the empty body. -/
theorem post_nil_payload_returns (env : Env Err Resp Body V) (s : State V) (a : Nat)
    (p : String) (q : Option String) (h : Option GoMap) :
    (∃ err, (Post env s (Any.ptr a) p { Data := none, QueryParams := q, Headers := h }).out
      = Outcome.ret err) ∧
    ∀ cr ∈ postDispatch env s (Any.ptr a) p { Data := none, QueryParams := q, Headers := h },
      cr.2.body = "" := by
  constructor
  · rw [post_run]
    rcases hm : env.marshal (MeteoraRequest.mk none q h) with e | jB
    · exact ⟨_, rfl⟩
    rcases hn : env.newRequestErr "POST" (postUrl s.m.BaseUrl p q) with _ | e
    swap
    · exact ⟨_, rfl⟩
    rcases hd : env.doReq s.m.pool.Get.1 (postReq env s.m.BaseUrl p q h (postBody none jB))
      with e | rsp
    · simp [getPointer, hd]
    · simp [getPointer, hd]
  · intro cr hcr
    obtain ⟨jB, -, -, rfl⟩ := mem_postDispatch env s _ p _ cr hcr
    simp [postReq, setHeaders_body, postBody]

/-! ## SwapQuote -/

theorem GoMap.find_map_of_ne (m : GoMap) (k v k1 : String) (hk : k1 ≠ k) :
    GoMap.find (m.map fun kv => if kv.1 == k then (k, v) else kv) k1 = GoMap.find m k1 := by
  have hk2 : ¬ k = k1 := fun h => hk h.symm
  induction m with
  | nil => rfl
  | cons x t ih =>
    simp only [GoMap.find] at ih ⊢
    by_cases hx : x.1 = k
    · have hx1 : ¬ x.1 = k1 := by rw [hx]; exact hk2
      simpa [List.find?_cons, hx, hk2, hx1] using ih
    · by_cases hx1 : x.1 = k1
      · simp [List.find?_cons, hx, hx1, hk]
      · simpa [List.find?_cons, hx, hx1] using ih

theorem GoMap.find_map_self (m : GoMap) (k v : String)
    (hany : (m.any fun kv => kv.1 == k) = true) :
    GoMap.find (m.map fun kv => if kv.1 == k then (k, v) else kv) k = some v := by
  induction m with
  | nil => simp at hany
  | cons x t ih =>
    simp only [GoMap.find] at ih ⊢
    by_cases hx : x.1 = k
    · simp [List.find?_cons, hx]
    · have ht : (t.any fun kv => kv.1 == k) = true := by
        simpa [List.any_cons, hx] using hany
      simpa [List.find?_cons, hx] using ih ht

theorem GoMap.find_assign (m : GoMap) (k v k1 : String) :
    (m.assign k v).find k1 = if k1 = k then some v else m.find k1 := by
  unfold GoMap.assign
  by_cases hany : (m.any fun kv => kv.1 == k) = true
  · rw [if_pos hany]
    by_cases hk : k1 = k
    · rw [if_pos hk, hk]
      exact GoMap.find_map_self m k v hany
    · rw [if_neg hk]
      exact GoMap.find_map_of_ne m k v k1 hk
  · rw [if_neg hany]
    have hno : ∀ kv ∈ m, kv.1 ≠ k := by
      intro kv hkv hk
      exact hany (List.any_eq_true.mpr ⟨kv, hkv, by simpa using hk⟩)
    by_cases hk : k1 = k
    · subst hk
      have hnone : m.find? (fun kv => kv.1 == k1) = none :=
        List.find?_eq_none.mpr (fun kv hkv => by simpa using hno kv hkv)
      simp [GoMap.find, List.find?_append, hnone]
    · have hk2 : ¬ k = k1 := fun h => hk h.symm
      simp only [GoMap.find, List.find?_append, if_neg hk]
      cases hf : m.find? (fun kv => kv.1 == k1) with
      | some x => simp
      | none => simp [List.find?_cons, hk2]

theorem GoMap.keys_assign (m : GoMap) (k v : String)
    (hnd : (m.map Prod.fst).Nodup) : ((m.assign k v).map Prod.fst).Nodup := by
  unfold GoMap.assign
  by_cases hany : (m.any fun kv => kv.1 == k) = true
  · rw [if_pos hany, List.map_map]
    have hf : (Prod.fst ∘ fun kv : String × String => if kv.1 == k then (k, v) else kv)
        = Prod.fst := by
      funext kv
      by_cases hk : kv.1 = k
      · simp [hk]
      · simp [hk]
    rw [hf]
    exact hnd
  · rw [if_neg hany, List.map_append, List.nodup_append]
    refine ⟨hnd, by simp, ?_⟩
    intro a ha hb
    simp only [List.map_cons, List.map_nil, List.mem_singleton] at hb
    subst hb
    obtain ⟨kv, hkv, hk⟩ := List.mem_map.mp ha
    exact hany (List.any_eq_true.mpr ⟨kv, hkv, by simpa using hk⟩)

theorem GoMap.find_eq_some_iff (m : GoMap) (hnd : (m.map Prod.fst).Nodup) (k v : String) :
    m.find k = some v ↔ (k, v) ∈ m := by
  induction m with
  | nil => simp [GoMap.find]
  | cons x t ih =>
    rw [List.map_cons, List.nodup_cons] at hnd
    have ih1 := ih hnd.2
    simp only [GoMap.find] at ih1 ⊢
    by_cases hx : x.1 = k
    · have hnot : (k, v) ∉ t := by
        intro hmem
        exact hnd.1 (List.mem_map.mpr ⟨(k, v), hmem, hx.symm⟩)
      obtain ⟨a, b⟩ := x
      simp only at hx
      subst hx
      simp [List.find?_cons, hnot]
      exact eq_comm
    · have hne : (k, v) ≠ x := by
        intro h
        exact hx (by rw [← h])
      have hb : (x.1 == k) = false := by simpa using hx
      simp only [List.find?_cons, hb, List.mem_cons, hne, false_or]
      exact ih1

theorem GoMap.find_perm (l1 l2 : GoMap) (hp : l1.Perm l2)
    (hnd : (l1.map Prod.fst).Nodup) (k : String) : l1.find k = l2.find k := by
  have hnd2 : (l2.map Prod.fst).Nodup := (hp.map _).nodup_iff.mp hnd
  apply Option.ext
  intro v
  simp only [Option.mem_def]
  rw [GoMap.find_eq_some_iff l1 hnd, GoMap.find_eq_some_iff l2 hnd2]
  exact hp.mem_iff

/-- C2, as the code has it: with a non-nil header map `h` (its keys pairwise
distinct), whatever the order `visit` in which the updated map is visited,
`SwapQuote` is the `Get` for the path `/clmm-api/pair/`, the pair ID as
payload, no query string, and the map `h` in which `User-Agent` is the fixed
browser string and `Cache-Content` is `no-cache`, every other key keeping what
`h` has for it. What it dispatches has the method `GET` and as URL what
`http.NewRequest` makes of the text `BaseUrl ++ "/clmm-api/pair/" ++ PairID`;
for the base `https://api.example.com` and the pair `ABC123` that is
`GET https://api.example.com/clmm-api/pair/ABC123`, there with the fixed
`User-Agent` in place of the caller's and the caller's `Accept` as given. -/
theorem swapQuote_is_get (env : Env Err Resp Body V) (s : State V) (res : Any V)
    (h : GoMap) (qr : MeteoraQuoteRequest) (visit : GoMap → GoMap)
    (hv : ∀ m, (visit m).Perm m) (hnd : (h.map Prod.fst).Nodup) :
    (∃ h1 : GoMap,
      SwapQuote env s res (some h) qr visit
        = Get env s res "/clmm-api/pair/"
            { Data := some qr.PairID, QueryParams := none, Headers := some h1 } ∧
      h1.Perm ((h.assign "User-Agent" userAgent).assign "Cache-Content" "no-cache") ∧
      (h1.map Prod.fst).Nodup ∧
      h1.find "User-Agent" = some userAgent ∧
      h1.find "Cache-Content" = some "no-cache" ∧
      (∀ k, k ≠ "User-Agent" → k ≠ "Cache-Content" → h1.find k = h.find k)) ∧
    (∃ reqs : List (Client × HttpRequest),
      (SwapQuote env s res (some h) qr visit).state.sent = s.sent ++ reqs ∧
      ∀ cr ∈ reqs, cr.2.method = "GET" ∧
        cr.2.url = env.requestURL (s.m.BaseUrl ++ "/clmm-api/pair/" ++ qr.PairID)) ∧
    ((SwapQuote (sampleEnv (Except.ok []))
        (initState "https://api.example.com" [{ name := "", binStep := 0 }])
        (Any.ptr 0) (some [("User-Agent", "curl/8.0"), ("Accept", "application/json")])
        { PairID := "ABC123" } List.reverse).state.sent.map
      (fun cr => (cr.2.method, cr.2.url, cr.2.header "User-Agent", cr.2.header "Cache-Content",
        cr.2.header "Accept"))
      = [("GET", "https://api.example.com/clmm-api/pair/ABC123",
          some userAgent, some "no-cache", some "application/json")]) := by
  have hnd1 : (((h.assign "User-Agent" userAgent).assign "Cache-Content" "no-cache").map
      Prod.fst).Nodup :=
    GoMap.keys_assign _ _ _ (GoMap.keys_assign _ _ _ hnd)
  have hp := hv ((h.assign "User-Agent" userAgent).assign "Cache-Content" "no-cache")
  have hnd2 : ((visit ((h.assign "User-Agent" userAgent).assign "Cache-Content"
      "no-cache")).map Prod.fst).Nodup := (hp.map _).nodup_iff.mpr hnd1
  refine ⟨⟨visit ((h.assign "User-Agent" userAgent).assign "Cache-Content" "no-cache"),
    rfl, hp, hnd2, ?_, ?_, ?_⟩, ?_, by decide⟩
  · rw [GoMap.find_perm _ _ hp hnd2, GoMap.find_assign, GoMap.find_assign]
    simp
  · rw [GoMap.find_perm _ _ hp hnd2, GoMap.find_assign]
    simp
  · intro k h1 h2
    rw [GoMap.find_perm _ _ hp hnd2, GoMap.find_assign, GoMap.find_assign]
    simp [h1, h2]
  · have hs : SwapQuote env s res (some h) qr visit
        = Get env s res "/clmm-api/pair/"
            { Data := some qr.PairID, QueryParams := none,
              Headers := some (visit ((h.assign "User-Agent" userAgent).assign
                "Cache-Content" "no-cache")) } := rfl
    rw [hs]
    refine ⟨_, get_sent env s res _ _ _ _, ?_⟩
    intro cr hcr
    obtain ⟨jB, -, -, rfl⟩ := mem_getDispatch env s _ _ _ _ cr hcr
    exact ⟨setHeaders_method _ _, setHeaders_url _ _⟩

/-- The theorem `swapQuote_is_get` at the caller map `User-Agent: curl/8.0`,
`Accept: application/json`, visited in reverse. -/
theorem swapQuote_is_get_witness :
    (∃ h1 : GoMap,
      SwapQuote (sampleEnv (Except.ok []))
          (initState "https://api.example.com" [{ name := "", binStep := 0 }]) (Any.ptr 0)
          (some [("User-Agent", "curl/8.0"), ("Accept", "application/json")])
          { PairID := "ABC123" } List.reverse
        = Get (sampleEnv (Except.ok []))
            (initState "https://api.example.com" [{ name := "", binStep := 0 }]) (Any.ptr 0)
            "/clmm-api/pair/"
            { Data := some "ABC123", QueryParams := none, Headers := some h1 } ∧
      h1.find "User-Agent" = some userAgent ∧
      h1.find "Cache-Content" = some "no-cache" ∧
      h1.find "Accept" = some "application/json") := by
  obtain ⟨⟨h1, e, -, -, hua, hcc, hrest⟩, -, -⟩ :=
    swapQuote_is_get (sampleEnv (Except.ok []))
      (initState "https://api.example.com" [{ name := "", binStep := 0 }]) (Any.ptr 0)
      [("User-Agent", "curl/8.0"), ("Accept", "application/json")]
      { PairID := "ABC123" } List.reverse (fun m => List.reverse_perm m) (by decide)
  exact ⟨h1, e, hua, hcc, by rw [hrest "Accept" (by decide) (by decide)]; decide⟩

/-- C2 as stated fails: for the pair ID `a b` the one request `SwapQuote`
dispatches has the URL `https://api.example.com/clmm-api/pair/a%20b`, which is
not the base followed by `/clmm-api/pair/` and the pair ID. -/
theorem swapQuote_url_counterexample :
    (SwapQuote (sampleEnv (Except.ok []))
        (initState "https://api.example.com" [{ name := "", binStep := 0 }])
        (Any.ptr 0) (some []) { PairID := "a b" } id).state.sent.map
        (fun cr => (cr.2.method, cr.2.url))
      = [("GET", "https://api.example.com/clmm-api/pair/a%20b")] ∧
    "https://api.example.com/clmm-api/pair/a%20b"
      ≠ "https://api.example.com" ++ "/clmm-api/pair/" ++ "a b" := by
  decide

/-! ## The headers of the POST path -/

theorem post_default_contentType :
    ((Header.empty.Set "content-type" "application/x-www-form-urlencoded").Set
        "Cache-Content" "no-cache") (CanonicalMIMEHeaderKey "content-type")
      = some "application/x-www-form-urlencoded" := by
  decide

theorem post_default_cache :
    ((Header.empty.Set "content-type" "application/x-www-form-urlencoded").Set
        "Cache-Content" "no-cache") (CanonicalMIMEHeaderKey "Cache-Content")
      = some "no-cache" := by
  decide

/-- C4, as the code has it: what a `Post` hands to the client has the method
`POST`; its header holds `application/x-www-form-urlencoded` under the
canonical form of `content-type` and `no-cache` under that of `Cache-Content`
whenever no entry of the caller's map has that canonical name; every entry
of the caller's map that is the only one of its canonical name is on the
request with the caller's value, a default of that name being replaced; and
of the entries of the caller's map that share a canonical name, the one
visited last is on the request with the caller's value. One request is
dispatched once encoding and request construction succeed and the result is
not the nil interface. -/
theorem post_headers (env : Env Err Resp Body V) (s : State V) (res : Any V)
    (p : String) (data : MeteoraRequest) :
    ∃ reqs : List (Client × HttpRequest),
      (Post env s res p data).state.sent = s.sent ++ reqs ∧
      (∀ cr ∈ reqs, cr.2.method = "POST" ∧
        ((∀ kv ∈ data.Headers.getD [],
            CanonicalMIMEHeaderKey kv.1 ≠ CanonicalMIMEHeaderKey "content-type") →
          cr.2.header (CanonicalMIMEHeaderKey "content-type")
            = some "application/x-www-form-urlencoded") ∧
        ((∀ kv ∈ data.Headers.getD [],
            CanonicalMIMEHeaderKey kv.1 ≠ CanonicalMIMEHeaderKey "Cache-Content") →
          cr.2.header (CanonicalMIMEHeaderKey "Cache-Content") = some "no-cache") ∧
        (∀ k v, (data.Headers.getD []).filter
              (fun kv => CanonicalMIMEHeaderKey kv.1 = CanonicalMIMEHeaderKey k) = [(k, v)] →
          cr.2.header (CanonicalMIMEHeaderKey k) = some v) ∧
        (∀ k v, ((data.Headers.getD []).filter
              (fun kv => CanonicalMIMEHeaderKey kv.1 = CanonicalMIMEHeaderKey k)).getLast?
              = some (k, v) →
          cr.2.header (CanonicalMIMEHeaderKey k) = some v)) ∧
      (∀ jB, env.marshal data = Except.ok jB →
        env.newRequestErr "POST" (match data.QueryParams with
          | none => s.m.BaseUrl ++ p
          | some qs => s.m.BaseUrl ++ p ++ "?" ++ qs) = none →
        res ≠ Any.nil → reqs.length = 1) := by
  have hu : (match data.QueryParams with
      | none => s.m.BaseUrl ++ p
      | some qs => s.m.BaseUrl ++ p ++ "?" ++ qs) = postUrl s.m.BaseUrl p data.QueryParams := by
    cases data.QueryParams <;> rfl
  rw [hu]
  refine ⟨_, post_sent env s res p data, ?_, ?_⟩
  · intro cr hcr
    obtain ⟨jB, -, -, rfl⟩ := mem_postDispatch env s res p data cr hcr
    refine ⟨setHeaders_method _ _, ?_, ?_, ?_, ?_⟩
    · intro hno
      cases hh : data.Headers with
      | none => simp only [postReq, hh, setHeaders]; decide
      | some hs =>
        rw [hh] at hno
        simp only [postReq, hh]
        rw [setHeaders_header_of_absent hs _ _ hno]
        exact post_default_contentType
    · intro hno
      cases hh : data.Headers with
      | none => simp only [postReq, hh, setHeaders]; decide
      | some hs =>
        rw [hh] at hno
        simp only [postReq, hh]
        rw [setHeaders_header_of_absent hs _ _ hno]
        exact post_default_cache
    · intro k v hone
      cases hh : data.Headers with
      | none => simp [hh] at hone
      | some hs =>
        rw [hh] at hone
        simp only [postReq, hh]
        exact setHeaders_header_of_single hs _ k v hone
    · intro k v hlast
      cases hh : data.Headers with
      | none => simp [hh] at hlast
      | some hs =>
        rw [hh] at hlast
        simp only [postReq, hh]
        exact setHeaders_header_of_last hs _ k v hlast
  · intro jB hm hn hres
    rw [postDispatch_of_ok env s res p data jB hm hn hres]
    rfl

/-- C4 as stated fails: with the caller entries `x-a: 1` and `X-A: 2`, visited
in this order, the one request dispatched holds `2` under `X-A` and nothing
under `x-a`, so the entry `x-a: 1`, which is neither `content-type` nor
`Cache-Content`, is not on the request with the caller's value. -/
theorem post_headers_counterexample :
    (Post (sampleEnv (Except.ok [])) (initState "https://api.example.com" [{ name := "", binStep := 0 }])
        (Any.ptr 0) "/p"
        { Data := none, QueryParams := none,
          Headers := some [("x-a", "1"), ("X-A", "2")] }).state.sent.map
      (fun cr => (cr.2.header (CanonicalMIMEHeaderKey "x-a"), cr.2.header "x-a",
        cr.2.header "X-A"))
      = [(some "2", none, some "2")] ∧
    CanonicalMIMEHeaderKey "x-a" ≠ CanonicalMIMEHeaderKey "content-type" ∧
    CanonicalMIMEHeaderKey "x-a" ≠ CanonicalMIMEHeaderKey "Cache-Content" := by
  decide

/-! ## Independence of the visiting order -/

/-- C10: for two visiting orders `l1`, `l2` of a caller map whose keys are
pairwise distinct after canonicalisation, the request a `Get` dispatches and
the request a `Post` dispatches carry the same header in both orders (and
are the same request when the encoder does not tell the orders apart). The
condition on the keys is needed: for the keys `content-type` and
`Content-Type` with the values `a` and `b`, the two orders give the values
`b` and `a` under `Content-Type`, for `Get` and for `Post`. -/
theorem header_order_independent :
    (∀ (env : Env Err Resp Body V) (s : State V) (res : Any V) (p : String)
        (d q : Option String) (l1 l2 : GoMap),
      l1.Perm l2 → (l1.map fun kv => CanonicalMIMEHeaderKey kv.1).Nodup →
      (∀ c1 r1 c2 r2,
        (Get env s res p { Data := d, QueryParams := q, Headers := some l1 }).state.sent
          = s.sent ++ [(c1, r1)] →
        (Get env s res p { Data := d, QueryParams := q, Headers := some l2 }).state.sent
          = s.sent ++ [(c2, r2)] →
        r1.header = r2.header ∧
        (env.marshal { Data := d, QueryParams := q, Headers := some l1 }
            = env.marshal { Data := d, QueryParams := q, Headers := some l2 } →
          (c1, r1) = (c2, r2))) ∧
      (∀ c1 r1 c2 r2,
        (Post env s res p { Data := d, QueryParams := q, Headers := some l1 }).state.sent
          = s.sent ++ [(c1, r1)] →
        (Post env s res p { Data := d, QueryParams := q, Headers := some l2 }).state.sent
          = s.sent ++ [(c2, r2)] →
        r1.header = r2.header ∧
        (env.marshal { Data := d, QueryParams := q, Headers := some l1 }
            = env.marshal { Data := d, QueryParams := q, Headers := some l2 } →
          (c1, r1) = (c2, r2)))) ∧
    ((Get (sampleEnv (Except.ok [])) (initState "https://api.example.com" [{ name := "", binStep := 0 }])
        (Any.ptr 0) "/p/"
        { Data := some "A", QueryParams := none,
          Headers := some [("content-type", "a"), ("Content-Type", "b")] }).state.sent.map
        (fun cr => cr.2.header "Content-Type") = [some "b"] ∧
     (Get (sampleEnv (Except.ok [])) (initState "https://api.example.com" [{ name := "", binStep := 0 }])
        (Any.ptr 0) "/p/"
        { Data := some "A", QueryParams := none,
          Headers := some [("Content-Type", "b"), ("content-type", "a")] }).state.sent.map
        (fun cr => cr.2.header "Content-Type") = [some "a"] ∧
     (Post (sampleEnv (Except.ok [])) (initState "https://api.example.com" [{ name := "", binStep := 0 }])
        (Any.ptr 0) "/p"
        { Data := some "A", QueryParams := none,
          Headers := some [("content-type", "a"), ("Content-Type", "b")] }).state.sent.map
        (fun cr => cr.2.header "Content-Type") = [some "b"] ∧
     (Post (sampleEnv (Except.ok [])) (initState "https://api.example.com" [{ name := "", binStep := 0 }])
        (Any.ptr 0) "/p"
        { Data := some "A", QueryParams := none,
          Headers := some [("Content-Type", "b"), ("content-type", "a")] }).state.sent.map
        (fun cr => cr.2.header "Content-Type") = [some "a"] ∧
     [("content-type", "a"), ("Content-Type", "b")].Perm
        [("Content-Type", "b"), ("content-type", "a")]) := by
  refine ⟨?_, by decide, by decide, by decide, by decide, List.Perm.swap _ _ _⟩
  intro env s res p d q l1 l2 hp hnd
  constructor
  · intro c1 r1 c2 r2 h1 h2
    cases d with
    | none => simp [get_run_nil, borrowed] at h1
    | some d =>
      rw [get_sent] at h1 h2
      have m1 := mem_getDispatch env s p d q (some l1) (c1, r1)
        (by rw [List.append_cancel_left h1]; exact List.mem_singleton_self _)
      have m2 := mem_getDispatch env s p d q (some l2) (c2, r2)
        (by rw [List.append_cancel_left h2]; exact List.mem_singleton_self _)
      obtain ⟨j1, hm1, -, e1⟩ := m1
      obtain ⟨j2, hm2, -, e2⟩ := m2
      simp only [Prod.mk.injEq] at e1 e2
      obtain ⟨rfl, rfl⟩ := e1
      obtain ⟨rfl, rfl⟩ := e2
      refine ⟨by rw [getReq, getReq, setHeaders_perm l1 l2 _ hp hnd,
        setHeaders_header_irrel], ?_⟩
      intro hmm
      rw [hm1, hm2] at hmm
      cases hmm
      rw [getReq, getReq, setHeaders_perm l1 l2 _ hp hnd]
  · intro c1 r1 c2 r2 h1 h2
    rw [post_sent] at h1 h2
    have m1 := mem_postDispatch env s res p _ (c1, r1)
      (by rw [List.append_cancel_left h1]; exact List.mem_singleton_self _)
    have m2 := mem_postDispatch env s res p _ (c2, r2)
      (by rw [List.append_cancel_left h2]; exact List.mem_singleton_self _)
    obtain ⟨j1, hm1, -, e1⟩ := m1
    obtain ⟨j2, hm2, -, e2⟩ := m2
    simp only [Prod.mk.injEq] at e1 e2
    obtain ⟨rfl, rfl⟩ := e1
    obtain ⟨rfl, rfl⟩ := e2
    refine ⟨by rw [postReq, postReq, setHeaders_perm l1 l2 _ hp hnd,
      setHeaders_header_irrel], ?_⟩
    intro hmm
    rw [hm1, hm2] at hmm
    cases hmm
    rw [postReq, postReq, setHeaders_perm l1 l2 _ hp hnd]

/-! ## The client pool -/

theorem swapQuote_pool (env : Env Err Resp Body V) (s : State V) (res : Any V)
    (h : GoMap) (qr : MeteoraQuoteRequest) (visit : GoMap → GoMap) :
    (SwapQuote env s res (some h) qr visit).state.m = { s.m with pool := s.m.pool.Get.2 } :=
  get_pool env s res _ _

theorem pool_get_of_empty (pl : Pool) (h : pl.idle = []) :
    pl.Get = ({ timeoutMs := 5000, serial := pl.made }, { idle := [], made := pl.made + 1 }) := by
  simp [Pool.Get, h]

/-- C6, as the code has it: no call gives its handle back. Every call of
`Get`, `Post` and `SwapQuote` (with a header map) leaves the pool as taking
the handle left it, on every path: an idle handle is removed, or a client with
the timeout of 5000 ms is constructed. So on a pool without idle handle, as
`NewMeteora` makes it, each call constructs a new client, the pool has no
idle handle afterwards either, and the next call uses another handle. -/
theorem pool_never_refilled (env : Env Err Resp Body V) (s : State V) (res : Any V)
    (p : String) (data : MeteoraRequest) (h : GoMap) (qr : MeteoraQuoteRequest)
    (visit : GoMap → GoMap) :
    (Get env s res p data).state.m.pool = s.m.pool.Get.2 ∧
    (Post env s res p data).state.m.pool = s.m.pool.Get.2 ∧
    (SwapQuote env s res (some h) qr visit).state.m.pool = s.m.pool.Get.2 ∧
    (s.m.pool.idle = [] →
      s.m.pool.Get.1 = { timeoutMs := 5000, serial := s.m.pool.made } ∧
      s.m.pool.Get.2 = { idle := [], made := s.m.pool.made + 1 } ∧
      s.m.pool.Get.2.Get.1 = { timeoutMs := 5000, serial := s.m.pool.made + 1 } ∧
      s.m.pool.Get.2.Get.1 ≠ s.m.pool.Get.1) ∧
    (NewMeteora s.m.BaseUrl).pool.idle = [] := by
  refine ⟨by rw [get_pool], by rw [post_pool], by rw [swapQuote_pool], ?_, rfl⟩
  intro hidle
  rw [pool_get_of_empty _ hidle]
  refine ⟨rfl, rfl, rfl, ?_⟩
  intro hc
  have := congrArg Client.serial hc
  simp [Pool.Get] at this

/-- C6 as stated fails: on `NewMeteora("https://api.example.com")` a first `Get`
returns nil and leaves the pool without idle handle, although it used the
handle with serial 0; a second `Get` then constructs a second client: the two
requests went out on the handles 0 and 1, and two clients were made. -/
theorem pool_release_counterexample :
    (Get (sampleEnv (Except.ok [])) (initState "https://api.example.com" [{ name := "", binStep := 0 }])
        (Any.ptr 0) "/p/" { Data := some "A", QueryParams := none, Headers := none }).out
      = Outcome.ret none ∧
    (Get (sampleEnv (Except.ok [])) (initState "https://api.example.com" [{ name := "", binStep := 0 }])
        (Any.ptr 0) "/p/" { Data := some "A", QueryParams := none, Headers := none }).state.m.pool
      = { idle := [], made := 1 } ∧
    (Get (sampleEnv (Except.ok []))
        (Get (sampleEnv (Except.ok [])) (initState "https://api.example.com" [{ name := "", binStep := 0 }])
          (Any.ptr 0) "/p/" { Data := some "A", QueryParams := none, Headers := none }).state
        (Any.ptr 0) "/p/" { Data := some "B", QueryParams := none, Headers := none }).state.sent.map
        (fun cr => (cr.1, cr.2.url))
      = [({ timeoutMs := 5000, serial := 0 }, "https://api.example.com/p/A"),
         ({ timeoutMs := 5000, serial := 1 }, "https://api.example.com/p/B")] ∧
    (Get (sampleEnv (Except.ok []))
        (Get (sampleEnv (Except.ok [])) (initState "https://api.example.com" [{ name := "", binStep := 0 }])
          (Any.ptr 0) "/p/" { Data := some "A", QueryParams := none, Headers := none }).state
        (Any.ptr 0) "/p/" { Data := some "B", QueryParams := none, Headers := none }).state.m.pool
      = { idle := [], made := 2 } := by
  decide

/-! ## Result normalisation -/

theorem decodeInto_fresh (env : Env Err Resp Body V) (heap : List V) (z : V) (rsp : Resp) :
    decodeInto env (heap ++ [z]) (Any.ptr heap.length) rsp
      = (heap ++ [(env.decode rsp z).1], (env.decode rsp z).2) := by
  simp [decodeInto]

theorem decodeInto_ptr (env : Env Err Resp Body V) (heap : List V) (a : Nat) (old : V)
    (rsp : Resp) (h : heap.get? a = some old) :
    decodeInto env heap (Any.ptr a) rsp
      = (heap.set a (env.decode rsp old).1, (env.decode rsp old).2) := by
  simp only [decodeInto, h]

/-- The run of `Post` on a result that is not of pointer kind. -/
theorem post_run_val (env : Env Err Resp Body V) (s : State V) (v : V)
    (p : String) (data : MeteoraRequest) :
    Post env s (Any.val v) p data =
      match env.marshal data with
      | Except.error e => { state := borrowed s, out := Outcome.ret (some e) }
      | Except.ok jB =>
        match env.newRequestErr "POST" (postUrl s.m.BaseUrl p data.QueryParams) with
        | some e => { state := borrowed s, out := Outcome.ret (some e) }
        | none =>
          match env.doReq s.m.pool.Get.1
              (postReq env s.m.BaseUrl p data.QueryParams data.Headers (postBody data.Data jB)) with
          | Except.error e =>
            { state := dispatched s
                (postReq env s.m.BaseUrl p data.QueryParams data.Headers (postBody data.Data jB))
                (s.heap ++ [env.zeroOf v]),
              out := Outcome.ret (some e) }
          | Except.ok rsp =>
            { state := dispatched s
                (postReq env s.m.BaseUrl p data.QueryParams data.Headers (postBody data.Data jB))
                (s.heap ++ [(env.decode rsp (env.zeroOf v)).1]),
              out := Outcome.ret (env.decode rsp (env.zeroOf v)).2 } := by
  rw [post_run]
  simp only [getPointer, decodeInto_fresh]

/-- The run of `Post` on a result that is a pointer to a cell. -/
theorem post_run_ptr (env : Env Err Resp Body V) (s : State V) (a : Nat) (old : V)
    (p : String) (data : MeteoraRequest) (ha : s.heap.get? a = some old) :
    Post env s (Any.ptr a) p data =
      match env.marshal data with
      | Except.error e => { state := borrowed s, out := Outcome.ret (some e) }
      | Except.ok jB =>
        match env.newRequestErr "POST" (postUrl s.m.BaseUrl p data.QueryParams) with
        | some e => { state := borrowed s, out := Outcome.ret (some e) }
        | none =>
          match env.doReq s.m.pool.Get.1
              (postReq env s.m.BaseUrl p data.QueryParams data.Headers (postBody data.Data jB)) with
          | Except.error e =>
            { state := dispatched s
                (postReq env s.m.BaseUrl p data.QueryParams data.Headers (postBody data.Data jB))
                s.heap,
              out := Outcome.ret (some e) }
          | Except.ok rsp =>
            { state := dispatched s
                (postReq env s.m.BaseUrl p data.QueryParams data.Headers (postBody data.Data jB))
                (s.heap.set a (env.decode rsp old).1),
              out := Outcome.ret (env.decode rsp old).2 } := by
  rw [post_run]
  simp only [getPointer, decodeInto_ptr env s.heap a old _ ha]

/-- C7: `getPointer` gives back a result of pointer kind as it is, and for any
other non-nil result a pointer to a new cell, beyond the cells there were,
holding the zero value of its type. So a `Post` with a result that is not a
pointer changes none of the cells there were before the call, whatever it
returns, and the decoder writes into the new cell; with a pointer to a cell,
the decoder writes into that cell. -/
theorem getPointer_normalises (env : Env Err Resp Body V) (s : State V)
    (p : String) (data : MeteoraRequest) :
    (∀ a, getPointer env.zeroOf s.heap (Any.ptr a) = some (s.heap, Any.ptr a)) ∧
    (∀ v, getPointer env.zeroOf s.heap (Any.val v)
          = some (s.heap ++ [env.zeroOf v], Any.ptr s.heap.length) ∧
        s.heap.get? s.heap.length = none ∧
        (s.heap ++ [env.zeroOf v]).get? s.heap.length = some (env.zeroOf v)) ∧
    (∀ v,
      (∀ a, a < s.heap.length →
        (Post env s (Any.val v) p data).state.heap.get? a = s.heap.get? a) ∧
      (∀ jB rsp, env.marshal data = Except.ok jB →
        env.newRequestErr "POST" (postUrl s.m.BaseUrl p data.QueryParams) = none →
        env.doReq s.m.pool.Get.1
          (postReq env s.m.BaseUrl p data.QueryParams data.Headers (postBody data.Data jB))
          = Except.ok rsp →
        (Post env s (Any.val v) p data).state.heap
          = s.heap ++ [(env.decode rsp (env.zeroOf v)).1] ∧
        (Post env s (Any.val v) p data).out = Outcome.ret (env.decode rsp (env.zeroOf v)).2)) ∧
    (∀ a old jB rsp, s.heap.get? a = some old →
      env.marshal data = Except.ok jB →
      env.newRequestErr "POST" (postUrl s.m.BaseUrl p data.QueryParams) = none →
      env.doReq s.m.pool.Get.1
        (postReq env s.m.BaseUrl p data.QueryParams data.Headers (postBody data.Data jB))
        = Except.ok rsp →
      (Post env s (Any.ptr a) p data).state.heap = s.heap.set a (env.decode rsp old).1 ∧
      (Post env s (Any.ptr a) p data).out = Outcome.ret (env.decode rsp old).2) := by
  refine ⟨fun a => rfl, fun v => ⟨rfl, by simp, by simp⟩, fun v => ⟨?_, ?_⟩, ?_⟩
  · intro a ha
    rw [post_run_val]
    rcases hm : env.marshal data with e | jB
    · rfl
    rcases hn : env.newRequestErr "POST" (postUrl s.m.BaseUrl p data.QueryParams) with _ | e
    swap
    · rfl
    rcases hd : env.doReq s.m.pool.Get.1
      (postReq env s.m.BaseUrl p data.QueryParams data.Headers (postBody data.Data jB)) with e | rsp
      <;> simp [dispatched, hd, List.getElem?_append_left ha]
  · intro jB rsp hm hn hd
    rw [post_run_val]
    simp [hm, hn, hd, dispatched]
  · intro a old jB rsp ha hm hn hd
    rw [post_run_ptr env s a old p data ha]
    simp [hm, hn, hd, dispatched]

/-! ## Errors -/

/-- The stages of a `Get` with a payload, the decoding given by `unmarshalInto`. -/
theorem get_stages (env : Env Err Resp Body V) (s : State V) (res : Any V)
    (p d : String) (q : Option String) (h : Option GoMap) :
    (Get env s res p { Data := some d, QueryParams := q, Headers := h }).state.sent
      = s.sent ++ getDispatch env s p d q h ∧
    (getDispatch env s p d q h).length ≤ 1 ∧
    (∀ e, env.marshal { Data := some d, QueryParams := q, Headers := h } = Except.error e →
      (Get env s res p { Data := some d, QueryParams := q, Headers := h }).out
        = Outcome.ret (some e) ∧ getDispatch env s p d q h = []) ∧
    (∀ jB e, env.marshal { Data := some d, QueryParams := q, Headers := h } = Except.ok jB →
      env.newRequestErr "GET" (getUrl s.m.BaseUrl p d q) = some e →
      (Get env s res p { Data := some d, QueryParams := q, Headers := h }).out
        = Outcome.ret (some e) ∧ getDispatch env s p d q h = []) ∧
    (∀ jB, env.marshal { Data := some d, QueryParams := q, Headers := h } = Except.ok jB →
      env.newRequestErr "GET" (getUrl s.m.BaseUrl p d q) = none →
      getDispatch env s p d q h = [(s.m.pool.Get.1, getReq env s.m.BaseUrl p d q h jB)] ∧
      (∀ e, env.doReq s.m.pool.Get.1 (getReq env s.m.BaseUrl p d q h jB) = Except.error e →
        (Get env s res p { Data := some d, QueryParams := q, Headers := h }).out
          = Outcome.ret (some e)) ∧
      (∀ rsp e, env.doReq s.m.pool.Get.1 (getReq env s.m.BaseUrl p d q h jB) = Except.ok rsp →
        env.readAll rsp = Except.error e →
        (Get env s res p { Data := some d, QueryParams := q, Headers := h }).out
          = Outcome.ret (some e)) ∧
      (∀ rsp body, env.doReq s.m.pool.Get.1 (getReq env s.m.BaseUrl p d q h jB) = Except.ok rsp →
        env.readAll rsp = Except.ok body →
        (Get env s res p { Data := some d, QueryParams := q, Headers := h }).out
          = Outcome.ret (unmarshalInto env s.heap res body).2)) ∧
    ((Get env s res p { Data := some d, QueryParams := q, Headers := h }).out
        = Outcome.ret none ↔
      ∃ jB rsp body,
        env.marshal { Data := some d, QueryParams := q, Headers := h } = Except.ok jB ∧
        env.newRequestErr "GET" (getUrl s.m.BaseUrl p d q) = none ∧
        env.doReq s.m.pool.Get.1 (getReq env s.m.BaseUrl p d q h jB) = Except.ok rsp ∧
        env.readAll rsp = Except.ok body ∧
        (unmarshalInto env s.heap res body).2 = none) := by
  refine ⟨get_sent env s res p d q h, ?_⟩
  rw [get_run]
  rcases hm : env.marshal (MeteoraRequest.mk (some d) q h) with e | jB
  · simp [getDispatch, hm]
  rcases hn : env.newRequestErr "GET" (getUrl s.m.BaseUrl p d q) with _ | e
  swap
  · simp [getDispatch, hm, hn]
  rcases hd : env.doReq s.m.pool.Get.1 (getReq env s.m.BaseUrl p d q h jB) with e | rsp
  · simp [getDispatch, hm, hn, hd]
  rcases hr : env.readAll rsp with e | body
  · simp [getDispatch, hm, hn, hd, hr]
    constructor
    · intro r1 e1 h1 h2
      subst h1
      rw [hr] at h2
      cases h2
      rfl
    · intro r1 b1 h1 h2
      subst h1
      rw [hr] at h2
      cases h2
  · simp [getDispatch, hm, hn, hd, hr]
    constructor
    · intro r1 e1 h1 h2
      subst h1
      rw [hr] at h2
      cases h2
    · intro r1 b1 h1 h2
      subst h1
      rw [hr] at h2
      cases h2
      rfl

/-- The stages of a `Post` whose result `getPointer` accepts, the decoding given
by `decodeInto`. -/
theorem post_stages (env : Env Err Resp Body V) (s : State V) (res : Any V)
    (p : String) (data : MeteoraRequest) (hr : List V × Any V)
    (hg : getPointer env.zeroOf s.heap res = some hr) :
    (Post env s res p data).state.sent = s.sent ++ postDispatch env s res p data ∧
    (postDispatch env s res p data).length ≤ 1 ∧
    (∀ e, env.marshal data = Except.error e →
      (Post env s res p data).out = Outcome.ret (some e) ∧ postDispatch env s res p data = []) ∧
    (∀ jB e, env.marshal data = Except.ok jB →
      env.newRequestErr "POST" (postUrl s.m.BaseUrl p data.QueryParams) = some e →
      (Post env s res p data).out = Outcome.ret (some e) ∧ postDispatch env s res p data = []) ∧
    (∀ jB, env.marshal data = Except.ok jB →
      env.newRequestErr "POST" (postUrl s.m.BaseUrl p data.QueryParams) = none →
      postDispatch env s res p data = [(s.m.pool.Get.1,
        postReq env s.m.BaseUrl p data.QueryParams data.Headers (postBody data.Data jB))] ∧
      (∀ e, env.doReq s.m.pool.Get.1
          (postReq env s.m.BaseUrl p data.QueryParams data.Headers (postBody data.Data jB))
          = Except.error e →
        (Post env s res p data).out = Outcome.ret (some e)) ∧
      (∀ rsp, env.doReq s.m.pool.Get.1
          (postReq env s.m.BaseUrl p data.QueryParams data.Headers (postBody data.Data jB))
          = Except.ok rsp →
        (Post env s res p data).out = Outcome.ret (decodeInto env hr.1 hr.2 rsp).2)) ∧
    ((Post env s res p data).out = Outcome.ret none ↔
      ∃ jB rsp,
        env.marshal data = Except.ok jB ∧
        env.newRequestErr "POST" (postUrl s.m.BaseUrl p data.QueryParams) = none ∧
        env.doReq s.m.pool.Get.1
          (postReq env s.m.BaseUrl p data.QueryParams data.Headers (postBody data.Data jB))
          = Except.ok rsp ∧
        (decodeInto env hr.1 hr.2 rsp).2 = none) := by
  refine ⟨post_sent env s res p data, ?_⟩
  rw [post_run]
  rcases hm : env.marshal data with e | jB
  · simp [postDispatch, hm]
  rcases hn : env.newRequestErr "POST" (postUrl s.m.BaseUrl p data.QueryParams) with _ | e
  swap
  · simp [postDispatch, hm, hn]
  rcases hd : env.doReq s.m.pool.Get.1
    (postReq env s.m.BaseUrl p data.QueryParams data.Headers (postBody data.Data jB)) with e | rsp
  · simp [postDispatch, hm, hn, hg, hd]
  · simp [postDispatch, hm, hn, hg, hd]

/-- The stages of a `Post` on the nil interface: it returns the error of the
encoding or of the request construction, and aborts otherwise. -/
theorem post_stages_nil (env : Env Err Resp Body V) (s : State V)
    (p : String) (data : MeteoraRequest) :
    (Post env s Any.nil p data).state.sent = s.sent ∧
    (∀ e, env.marshal data = Except.error e →
      (Post env s Any.nil p data).out = Outcome.ret (some e)) ∧
    (∀ jB e, env.marshal data = Except.ok jB →
      env.newRequestErr "POST" (postUrl s.m.BaseUrl p data.QueryParams) = some e →
      (Post env s Any.nil p data).out = Outcome.ret (some e)) ∧
    (∀ jB, env.marshal data = Except.ok jB →
      env.newRequestErr "POST" (postUrl s.m.BaseUrl p data.QueryParams) = none →
      (Post env s Any.nil p data).out = Outcome.panic) := by
  rw [post_run]
  rcases hm : env.marshal data with e | jB
  · simp [borrowed]
  rcases hn : env.newRequestErr "POST" (postUrl s.m.BaseUrl p data.QueryParams) with _ | e
  · simp [borrowed, getPointer]
  · simp [borrowed]

/-- The error of `json.Unmarshal(body, &res)`, by what `res` holds. -/
theorem unmarshalInto_err (env : Env Err Resp Body V) (heap : List V) (res : Any V)
    (body : Body) :
    (∀ a old, res = Any.ptr a → heap.get? a = some old →
      (unmarshalInto env heap res body).2 = (env.unmarshal body old).2) ∧
    ((∀ a, res = Any.ptr a → heap.get? a = none) →
      (unmarshalInto env heap res body).2 = env.unmarshalAny body) := by
  constructor
  · intro a old hres ha
    subst hres
    simp only [unmarshalInto, ha]
  · intro hno
    cases res with
    | nil => rfl
    | val v => rfl
    | ptr a => simp only [unmarshalInto, hno a rfl]

/-- A result is a pointer to a cell, or it is not. -/
theorem cell_or_not (heap : List V) (res : Any V) :
    (∃ a old, res = Any.ptr a ∧ heap.get? a = some old) ∨
    (∀ a, res = Any.ptr a → heap.get? a = none) := by
  cases res with
  | nil => exact Or.inr (fun a h => by cases h)
  | val v => exact Or.inr (fun a h => by cases h)
  | ptr a =>
    cases ha : heap.get? a with
    | none =>
      refine Or.inr (fun b h => ?_)
      cases h
      exact ha
    | some old => exact Or.inl ⟨a, old, rfl, ha⟩

/-- C8, as the code has it. A `Get` with a payload returns the error of the
first of the stages encode, construct, send, read the body and decode that
fails, as it is, and nil exactly when all of them succeed; so does a `Post`
with a result that is not the nil interface, for the stages encode,
construct, send and decode. The decode stage is `json.Unmarshal` resp.
`Decoder.Decode` on the cell the result points to (for a `Post`, the new cell
of a result that is no pointer), and on a result without cell `json.Unmarshal`
on the local variable resp. the rejecting `Decoder.Decode`. A `Post` on the
nil interface returns the error of a failing encode or construct stage and
otherwise aborts in `getPointer`. In every call the request goes to the
client at most once, and not at all when encoding or request construction
fails. -/
theorem first_failure_is_returned (env : Env Err Resp Body V) (s : State V) (res : Any V)
    (p d : String) (q : Option String) (h : Option GoMap) (data : MeteoraRequest) :
    (∃ sends : List (Client × HttpRequest),
      (Get env s res p { Data := some d, QueryParams := q, Headers := h }).state.sent
        = s.sent ++ sends ∧
      sends.length ≤ 1 ∧
      (∀ e, env.marshal { Data := some d, QueryParams := q, Headers := h } = Except.error e →
        (Get env s res p { Data := some d, QueryParams := q, Headers := h }).out
          = Outcome.ret (some e) ∧ sends = []) ∧
      (∀ jB e, env.marshal { Data := some d, QueryParams := q, Headers := h } = Except.ok jB →
        env.newRequestErr "GET" (getUrl s.m.BaseUrl p d q) = some e →
        (Get env s res p { Data := some d, QueryParams := q, Headers := h }).out
          = Outcome.ret (some e) ∧ sends = []) ∧
      (∀ jB, env.marshal { Data := some d, QueryParams := q, Headers := h } = Except.ok jB →
        env.newRequestErr "GET" (getUrl s.m.BaseUrl p d q) = none →
        sends = [(s.m.pool.Get.1, getReq env s.m.BaseUrl p d q h jB)] ∧
        (∀ e, env.doReq s.m.pool.Get.1 (getReq env s.m.BaseUrl p d q h jB) = Except.error e →
          (Get env s res p { Data := some d, QueryParams := q, Headers := h }).out
            = Outcome.ret (some e)) ∧
        (∀ rsp e, env.doReq s.m.pool.Get.1 (getReq env s.m.BaseUrl p d q h jB) = Except.ok rsp →
          env.readAll rsp = Except.error e →
          (Get env s res p { Data := some d, QueryParams := q, Headers := h }).out
            = Outcome.ret (some e)) ∧
        (∀ rsp body,
          env.doReq s.m.pool.Get.1 (getReq env s.m.BaseUrl p d q h jB) = Except.ok rsp →
          env.readAll rsp = Except.ok body →
          (∀ a old, res = Any.ptr a → s.heap.get? a = some old →
            (Get env s res p { Data := some d, QueryParams := q, Headers := h }).out
              = Outcome.ret (env.unmarshal body old).2) ∧
          ((∀ a, res = Any.ptr a → s.heap.get? a = none) →
            (Get env s res p { Data := some d, QueryParams := q, Headers := h }).out
              = Outcome.ret (env.unmarshalAny body)))) ∧
      ((Get env s res p { Data := some d, QueryParams := q, Headers := h }).out
          = Outcome.ret none ↔
        ∃ jB rsp body,
          env.marshal { Data := some d, QueryParams := q, Headers := h } = Except.ok jB ∧
          env.newRequestErr "GET" (getUrl s.m.BaseUrl p d q) = none ∧
          env.doReq s.m.pool.Get.1 (getReq env s.m.BaseUrl p d q h jB) = Except.ok rsp ∧
          env.readAll rsp = Except.ok body ∧
          ((∃ a old, res = Any.ptr a ∧ s.heap.get? a = some old ∧
              (env.unmarshal body old).2 = none) ∨
            ((∀ a, res = Any.ptr a → s.heap.get? a = none) ∧
              env.unmarshalAny body = none)))) ∧
    (∃ sends : List (Client × HttpRequest),
      (Post env s res p data).state.sent = s.sent ++ sends ∧
      sends.length ≤ 1 ∧
      (∀ e, env.marshal data = Except.error e →
        (Post env s res p data).out = Outcome.ret (some e) ∧ sends = []) ∧
      (∀ jB e, env.marshal data = Except.ok jB →
        env.newRequestErr "POST" (postUrl s.m.BaseUrl p data.QueryParams) = some e →
        (Post env s res p data).out = Outcome.ret (some e) ∧ sends = []) ∧
      (∀ jB, env.marshal data = Except.ok jB →
        env.newRequestErr "POST" (postUrl s.m.BaseUrl p data.QueryParams) = none →
        (res = Any.nil → (Post env s res p data).out = Outcome.panic ∧ sends = []) ∧
        (res ≠ Any.nil →
          sends = [(s.m.pool.Get.1,
            postReq env s.m.BaseUrl p data.QueryParams data.Headers (postBody data.Data jB))] ∧
          (∀ e, env.doReq s.m.pool.Get.1
              (postReq env s.m.BaseUrl p data.QueryParams data.Headers (postBody data.Data jB))
              = Except.error e →
            (Post env s res p data).out = Outcome.ret (some e)) ∧
          (∀ rsp, env.doReq s.m.pool.Get.1
              (postReq env s.m.BaseUrl p data.QueryParams data.Headers (postBody data.Data jB))
              = Except.ok rsp →
            (∀ a old, res = Any.ptr a → s.heap.get? a = some old →
              (Post env s res p data).out = Outcome.ret (env.decode rsp old).2) ∧
            (∀ a, res = Any.ptr a → s.heap.get? a = none →
              (Post env s res p data).out = Outcome.ret (some (env.decodeNil rsp))) ∧
            (∀ v, res = Any.val v →
              (Post env s res p data).out
                = Outcome.ret (env.decode rsp (env.zeroOf v)).2)))) ∧
      ((Post env s res p data).out = Outcome.ret none ↔
        ∃ jB rsp,
          env.marshal data = Except.ok jB ∧
          env.newRequestErr "POST" (postUrl s.m.BaseUrl p data.QueryParams) = none ∧
          env.doReq s.m.pool.Get.1
            (postReq env s.m.BaseUrl p data.QueryParams data.Headers (postBody data.Data jB))
            = Except.ok rsp ∧
          ((∃ a old, res = Any.ptr a ∧ s.heap.get? a = some old ∧
              (env.decode rsp old).2 = none) ∨
            (∃ v, res = Any.val v ∧ (env.decode rsp (env.zeroOf v)).2 = none)))) := by
  constructor
  · obtain ⟨hsent, hlen, hme, hne, hok, hiff⟩ := get_stages env s res p d q h
    refine ⟨getDispatch env s p d q h, hsent, hlen, hme, hne, ?_, ?_⟩
    · intro jB hm hn
      obtain ⟨h1, h2, h3, h4⟩ := hok jB hm hn
      refine ⟨h1, h2, h3, ?_⟩
      intro rsp body hd hr
      have hout := h4 rsp body hd hr
      constructor
      · intro a old hres ha
        rw [hout, (unmarshalInto_err env s.heap res body).1 a old hres ha]
      · intro hno
        rw [hout, (unmarshalInto_err env s.heap res body).2 hno]
    · rw [hiff]
      constructor
      · rintro ⟨jB, rsp, body, hm, hn, hd, hr, hu⟩
        refine ⟨jB, rsp, body, hm, hn, hd, hr, ?_⟩
        rcases cell_or_not s.heap res with ⟨a, old, hres, ha⟩ | hno
        · left
          refine ⟨a, old, hres, ha, ?_⟩
          rw [← (unmarshalInto_err env s.heap res body).1 a old hres ha]
          exact hu
        · right
          refine ⟨hno, ?_⟩
          rw [← (unmarshalInto_err env s.heap res body).2 hno]
          exact hu
      · rintro ⟨jB, rsp, body, hm, hn, hd, hr, hcase⟩
        refine ⟨jB, rsp, body, hm, hn, hd, hr, ?_⟩
        rcases hcase with ⟨a, old, hres, ha, hu⟩ | ⟨hno, hu⟩
        · rw [(unmarshalInto_err env s.heap res body).1 a old hres ha]
          exact hu
        · rw [(unmarshalInto_err env s.heap res body).2 hno]
          exact hu
  · cases res with
    | nil =>
      obtain ⟨hsent, hme, hne, hpanic⟩ := post_stages_nil env s p data
      refine ⟨[], by simpa using hsent, by simp, fun e hm => ⟨hme e hm, rfl⟩,
        fun jB e hm hn => ⟨hne jB e hm hn, rfl⟩, ?_, ?_⟩
      · intro jB hm hn
        exact ⟨fun _ => ⟨hpanic jB hm hn, rfl⟩, fun hne => absurd rfl hne⟩
      · constructor
        · intro hout
          rcases hm : env.marshal data with e | jB
          · rw [hme e hm] at hout
            cases hout
          rcases hn : env.newRequestErr "POST" (postUrl s.m.BaseUrl p data.QueryParams)
            with _ | e
          · rw [hpanic jB hm hn] at hout
            cases hout
          · rw [hne jB e hm hn] at hout
            cases hout
        · rintro ⟨jB, rsp, -, -, -, ⟨a, old, hres, -⟩ | ⟨v, hres, -⟩⟩
          · cases hres
          · cases hres
    | ptr a =>
      obtain ⟨hsent, hlen, hme, hne, hok, hiff⟩ :=
        post_stages env s (Any.ptr a) p data (s.heap, Any.ptr a) rfl
      refine ⟨_, hsent, hlen, hme, hne, ?_, ?_⟩
      · intro jB hm hn
        obtain ⟨h1, h2, h3⟩ := hok jB hm hn
        refine ⟨(fun hnil => by cases hnil), fun _ => ⟨h1, h2, ?_⟩⟩
        intro rsp hd
        have hout := h3 rsp hd
        refine ⟨?_, ?_, ?_⟩
        · intro b old hres hb
          cases hres
          rw [hout, decodeInto_ptr env s.heap a old rsp hb]
        · intro b hres hb
          cases hres
          rw [hout]
          simp only [decodeInto, hb]
        · intro v hres
          cases hres
      · rw [hiff]
        constructor
        · rintro ⟨jB, rsp, hm, hn, hd, hu⟩
          refine ⟨jB, rsp, hm, hn, hd, Or.inl ?_⟩
          change (decodeInto env s.heap (Any.ptr a) rsp).2 = none at hu
          cases ha : s.heap.get? a with
          | none =>
            simp only [decodeInto, ha] at hu
            cases hu
          | some old =>
            refine ⟨a, old, rfl, ha, ?_⟩
            rw [decodeInto_ptr env s.heap a old rsp ha] at hu
            exact hu
        · rintro ⟨jB, rsp, hm, hn, hd, ⟨b, old, hres, hb, hu⟩ | ⟨v, hres, -⟩⟩
          · cases hres
            refine ⟨jB, rsp, hm, hn, hd, ?_⟩
            rw [decodeInto_ptr env s.heap a old rsp hb]
            exact hu
          · cases hres
    | val v =>
      obtain ⟨hsent, hlen, hme, hne, hok, hiff⟩ :=
        post_stages env s (Any.val v) p data
          (s.heap ++ [env.zeroOf v], Any.ptr s.heap.length) rfl
      refine ⟨_, hsent, hlen, hme, hne, ?_, ?_⟩
      · intro jB hm hn
        obtain ⟨h1, h2, h3⟩ := hok jB hm hn
        refine ⟨(fun hnil => by cases hnil), fun _ => ⟨h1, h2, ?_⟩⟩
        intro rsp hd
        have hout := h3 rsp hd
        refine ⟨?_, ?_, ?_⟩
        · intro b old hres hb
          cases hres
        · intro b hres hb
          cases hres
        · intro w hres
          cases hres
          rw [hout, decodeInto_fresh]
      · rw [hiff]
        constructor
        · rintro ⟨jB, rsp, hm, hn, hd, hu⟩
          refine ⟨jB, rsp, hm, hn, hd, Or.inr ⟨v, rfl, ?_⟩⟩
          rw [decodeInto_fresh] at hu
          exact hu
        · rintro ⟨jB, rsp, hm, hn, hd, ⟨b, old, hres, -⟩ | ⟨w, hres, hu⟩⟩
          · cases hres
          · cases hres
            refine ⟨jB, rsp, hm, hn, hd, ?_⟩
            rw [decodeInto_fresh]
            exact hu

/-- C8 as stated fails for the calls that abort. A `Get` without payload, in an
environment in which encoding, request construction, sending, reading and
decoding all succeed, returns neither nil nor an error: it panics; and so
does a `Post` on the nil interface once encoding and request construction
have succeeded, before anything is sent. -/
theorem first_failure_counterexample :
    (Get (sampleEnv (Except.ok []))
        (initState "https://api.example.com" [{ name := "", binStep := 0 }])
        (Any.ptr 0) "/pools" { Data := none, QueryParams := none, Headers := none }).out
      = Outcome.panic ∧
    (∃ jB, (sampleEnv (Except.ok [])).marshal
        { Data := none, QueryParams := none, Headers := none } = Except.ok jB) ∧
    (sampleEnv (Except.ok [])).newRequestErr "GET" ("https://api.example.com" ++ "/pools") = none ∧
    (∀ c r, (sampleEnv (Except.ok [])).doReq c r = Except.ok []) ∧
    (sampleEnv (Except.ok [])).readAll [] = Except.ok [] ∧
    (sampleEnv (Except.ok [])).unmarshal [] { name := "", binStep := 0 }
      = ({ name := "", binStep := 0 }, none) ∧
    (Post (sampleEnv (Except.ok []))
        (initState "https://api.example.com" [{ name := "", binStep := 0 }])
        Any.nil "/pools" { Data := some "A", QueryParams := none, Headers := none }).out
      = Outcome.panic ∧
    (Post (sampleEnv (Except.ok []))
        (initState "https://api.example.com" [{ name := "", binStep := 0 }])
        Any.nil "/pools" { Data := some "A", QueryParams := none, Headers := none }).state.sent.map
        (fun cr => cr.1) = [] ∧
    (sampleEnv (Except.ok [])).newRequestErr "POST" ("https://api.example.com" ++ "/pools")
      = none := by
  refine ⟨by decide, ⟨_, rfl⟩, by decide, fun _ _ => rfl, rfl, rfl, by decide, by decide,
    by decide⟩

/-! ## The result container after a call -/

theorem unmarshalInto_ptr (env : Env Err Resp Body V) (heap : List V) (a : Nat) (old : V)
    (body : Body) (h : heap.get? a = some old) :
    unmarshalInto env heap (Any.ptr a) body
      = (heap.set a (env.unmarshal body old).1, (env.unmarshal body old).2) := by
  simp only [unmarshalInto, h]

/-- C9, as the code has it. A `Get` with a payload, and a `Post` on a pointer
to a cell, leave every cell as it was unless all the stages before decoding
(encode, construct, send, and for `Get` read the body) succeed; once they do,
the cell the result points to holds what the decoder left in it, and the
call returns the decoder's error, nil or not. With a result that is not of
pointer kind, a `Get` changes no cell, and a `Post` changes none of the cells
there were before the call, whatever they return. -/
theorem result_after_call (env : Env Err Resp Body V) (s : State V)
    (p d : String) (q : Option String) (h : Option GoMap) (data : MeteoraRequest) :
    (∀ res : Any V,
      (¬ (∃ jB rsp body,
          env.marshal { Data := some d, QueryParams := q, Headers := h } = Except.ok jB ∧
          env.newRequestErr "GET" (getUrl s.m.BaseUrl p d q) = none ∧
          env.doReq s.m.pool.Get.1 (getReq env s.m.BaseUrl p d q h jB) = Except.ok rsp ∧
          env.readAll rsp = Except.ok body)) →
      (Get env s res p { Data := some d, QueryParams := q, Headers := h }).state.heap = s.heap ∧
      (Get env s res p { Data := some d, QueryParams := q, Headers := h }).out
        ≠ Outcome.ret none) ∧
    (∀ a old jB rsp body, s.heap.get? a = some old →
      env.marshal { Data := some d, QueryParams := q, Headers := h } = Except.ok jB →
      env.newRequestErr "GET" (getUrl s.m.BaseUrl p d q) = none →
      env.doReq s.m.pool.Get.1 (getReq env s.m.BaseUrl p d q h jB) = Except.ok rsp →
      env.readAll rsp = Except.ok body →
      (Get env s (Any.ptr a) p { Data := some d, QueryParams := q, Headers := h }).state.heap
        = s.heap.set a (env.unmarshal body old).1 ∧
      (Get env s (Any.ptr a) p { Data := some d, QueryParams := q, Headers := h }).out
        = Outcome.ret (env.unmarshal body old).2) ∧
    (∀ v, (Get env s (Any.val v) p { Data := some d, QueryParams := q, Headers := h }).state.heap
        = s.heap) ∧
    (∀ a old, s.heap.get? a = some old →
      (¬ (∃ jB rsp,
          env.marshal data = Except.ok jB ∧
          env.newRequestErr "POST" (postUrl s.m.BaseUrl p data.QueryParams) = none ∧
          env.doReq s.m.pool.Get.1
            (postReq env s.m.BaseUrl p data.QueryParams data.Headers (postBody data.Data jB))
            = Except.ok rsp)) →
      (Post env s (Any.ptr a) p data).state.heap = s.heap ∧
      (Post env s (Any.ptr a) p data).out ≠ Outcome.ret none) ∧
    (∀ a old jB rsp, s.heap.get? a = some old →
      env.marshal data = Except.ok jB →
      env.newRequestErr "POST" (postUrl s.m.BaseUrl p data.QueryParams) = none →
      env.doReq s.m.pool.Get.1
        (postReq env s.m.BaseUrl p data.QueryParams data.Headers (postBody data.Data jB))
        = Except.ok rsp →
      (Post env s (Any.ptr a) p data).state.heap = s.heap.set a (env.decode rsp old).1 ∧
      (Post env s (Any.ptr a) p data).out = Outcome.ret (env.decode rsp old).2) ∧
    (∀ v a, a < s.heap.length →
      (Post env s (Any.val v) p data).state.heap.get? a = s.heap.get? a) := by
  refine ⟨?_, ?_, ?_, ?_, ?_, ?_⟩
  · intro res hno
    rw [get_run]
    rcases hm : env.marshal (MeteoraRequest.mk (some d) q h) with e | jB
    · simp [borrowed]
    rcases hn : env.newRequestErr "GET" (getUrl s.m.BaseUrl p d q) with _ | e
    swap
    · simp [borrowed]
    rcases hd : env.doReq s.m.pool.Get.1 (getReq env s.m.BaseUrl p d q h jB) with e | rsp
    · simp [dispatched, hd]
    rcases hr : env.readAll rsp with e | body
    · simp [dispatched, hd, hr]
    · exact absurd ⟨jB, rsp, body, hm, hn, hd, hr⟩ hno
  · intro a old jB rsp body ha hm hn hd hr
    rw [get_run]
    simp [hm, hn, hd, hr, dispatched, unmarshalInto_ptr env s.heap a old body ha]
  · intro v
    rw [get_run]
    rcases hm : env.marshal (MeteoraRequest.mk (some d) q h) with e | jB
    · simp [borrowed]
    rcases hn : env.newRequestErr "GET" (getUrl s.m.BaseUrl p d q) with _ | e
    swap
    · simp [borrowed]
    rcases hd : env.doReq s.m.pool.Get.1 (getReq env s.m.BaseUrl p d q h jB) with e | rsp
    · simp [dispatched, hd]
    rcases hr : env.readAll rsp with e | body
    · simp [dispatched, hd, hr]
    · simp [dispatched, hd, hr, unmarshalInto]
  · intro a old ha hno
    rw [post_run_ptr env s a old p data ha]
    rcases hm : env.marshal data with e | jB
    · simp [borrowed]
    rcases hn : env.newRequestErr "POST" (postUrl s.m.BaseUrl p data.QueryParams) with _ | e
    swap
    · simp [borrowed]
    rcases hd : env.doReq s.m.pool.Get.1
      (postReq env s.m.BaseUrl p data.QueryParams data.Headers (postBody data.Data jB)) with e | rsp
    · simp [dispatched, hd]
    · exact absurd ⟨jB, rsp, hm, hn, hd⟩ hno
  · intro a old jB rsp ha hm hn hd
    rw [post_run_ptr env s a old p data ha]
    simp [hm, hn, hd, dispatched]
  · intro v a ha
    rw [post_run_val]
    rcases hm : env.marshal data with e | jB
    · rfl
    rcases hn : env.newRequestErr "POST" (postUrl s.m.BaseUrl p data.QueryParams) with _ | e
    swap
    · rfl
    rcases hd : env.doReq s.m.pool.Get.1
      (postReq env s.m.BaseUrl p data.QueryParams data.Headers (postBody data.Data jB)) with e | rsp
      <;> simp [dispatched, hd, List.getElem?_append_left ha]

/-- C9 as stated fails, both ways. A `Get` on a pointer to a zero record, with
the response body `name: "x", bin_step: "oops"`, returns the decoder's type
error and has stored `x` in the name of the caller's record. A `Post` with
the record itself as result (not a pointer), with the response body
`name: "x", bin_step: 5`, returns nil and the caller's cell is as before: the
decoded record is in the new cell. -/
theorem result_untouched_counterexample :
    (Get (sampleEnv (Except.ok [("name", JVal.str "x"), ("bin_step", JVal.str "oops")]))
        (initState "https://api.example.com" [{ name := "", binStep := 0 }])
        (Any.ptr 0) "/p/" { Data := some "A", QueryParams := none, Headers := none }).out
      = Outcome.ret (some
          "json: cannot unmarshal string into Go struct field MeteoraData.bin_step of type int") ∧
    (Get (sampleEnv (Except.ok [("name", JVal.str "x"), ("bin_step", JVal.str "oops")]))
        (initState "https://api.example.com" [{ name := "", binStep := 0 }])
        (Any.ptr 0) "/p/" { Data := some "A", QueryParams := none, Headers := none }).state.heap
      = [{ name := "x", binStep := 0 }] ∧
    (Post (sampleEnv (Except.ok [("name", JVal.str "x"), ("bin_step", JVal.num 5)]))
        (initState "https://api.example.com" [{ name := "", binStep := 0 }])
        (Any.val { name := "", binStep := 0 }) "/p"
        { Data := some "A", QueryParams := none, Headers := none }).out
      = Outcome.ret none ∧
    (Post (sampleEnv (Except.ok [("name", JVal.str "x"), ("bin_step", JVal.num 5)]))
        (initState "https://api.example.com" [{ name := "", binStep := 0 }])
        (Any.val { name := "", binStep := 0 }) "/p"
        { Data := some "A", QueryParams := none, Headers := none }).state.heap
      = [{ name := "", binStep := 0 }, { name := "x", binStep := 5 }] := by
  decide

end GoMeteora
